import Mathlib

/-
Verification of the STFT processor core of noise-repellent
(src/src/stft_processor.c) against its natural-language specification.

The C file is shallowly embedded over exact rational arithmetic:
float buffers become functions from array index to rational value, the
per-array C loops become the pointwise bulk update they compute, and the
streaming run loop becomes structural recursion over the list of input
samples.  External collaborators that are not part of the repository
(the FFTW transform pair, the window generator fft_window and the
spectral stage fft_p_run, which live in fft_processor.c / libfftw) are
modelled from the spec, as marked in their doc comments.
-/

namespace NoiseRepellent

/-- STFT default value FFT_SIZE (stft_processor.c, hardcoded #define). -/
def FFT_SIZE : ℕ := 2048

/-- STFT default value BLOCK_SIZE (stft_processor.c, hardcoded #define). -/
def BLOCK_SIZE : ℕ := 2048

/-- STFT default input window type (3 = VORBIS, hardcoded #define). -/
def INPUT_WINDOW_TYPE : ℕ := 3

/-- STFT default output window type (3 = VORBIS, hardcoded #define). -/
def OUTPUT_WINDOW_TYPE : ℕ := 3

/-- STFT default overlap factor (4, i.e. 75% overlap, hardcoded #define). -/
def OVERLAP_FACTOR : ℕ := 4

/-- The STFT processor struct of stft_processor.c.  Each float array is a
function from array index to the rational value stored there; the fftwf
plans and the opaque FFTprocessor handle carry no data in the model (the
transform pair and spectral stage are passed as functions instead). -/
structure STFTprocessor where
  fft_size : ℕ
  block_size : ℕ
  window_option_input : ℕ
  window_option_output : ℕ
  overlap_factor : ℕ
  overlap_scale_factor : ℚ
  hop : ℕ
  input_latency : ℕ
  read_position : ℕ
  input_window : ℕ → ℚ
  output_window : ℕ → ℚ
  in_fifo : ℕ → ℚ
  out_fifo : ℕ → ℚ
  output_accum : ℕ → ℚ
  input_fft_buffer : ℕ → ℚ
  output_fft_buffer : ℕ → ℚ

/-- Modelled from the spec: initialize_array (fft_processor.c, not under
src/) writes the value v into the first size entries of a buffer. -/
def array_fill (buf : ℕ → ℚ) (v : ℚ) (size : ℕ) : ℕ → ℚ :=
  fun k => if k < size then v else buf k

/-- The running sum of products computed by the scale-factor loop of
stft_p_pre_and_post_window: dot_sum w1 w2 n is the inner product of the
first n entries of the two window buffers. -/
def dot_sum (w1 w2 : ℕ → ℚ) : ℕ → ℚ
  | 0 => 0
  | n + 1 => dot_sum w1 w2 n + w1 n * w2 n

/-- Modelled from the spec: fft_window (fft_processor.c, not under src/)
fills the first size entries of the buffer with the coefficients of the
chosen window family; the Window Generator interface of the spec is a
pure deterministic function of (type, length), so the coefficient shape
is an explicit parameter gen (type, length, index to coefficient). -/
def fft_window_write (gen : ℕ → ℕ → ℕ → ℚ) (buf : ℕ → ℚ) (size w_type : ℕ) : ℕ → ℚ :=
  fun k => if k < size then gen w_type size k else buf k

/-- Modelled from the spec: the forward FFTW real-to-half-complex plan
(external library).  Only the composition with the backward plan matters
to the claims (an unnormalized transform pair whose round trip multiplies
every sample by fft_size); the forward direction is modelled as the
identity on the buffer, the factor fft_size being carried by the
backward direction. -/
def fftw_forward (_n : ℕ) (v : ℕ → ℚ) : ℕ → ℚ := v

/-- Modelled from the spec: the backward FFTW half-complex-to-real plan
(external library); paired with fftw_forward it multiplies every sample
by fft_size, the unnormalized transform convention that
stft_p_synthesis undoes by dividing by fft_size. -/
def fftw_backward (n : ℕ) (v : ℕ → ℚ) : ℕ → ℚ := fun k => (n : ℚ) * v k

/-- stft_p_pre_and_post_window: generates the input and output windows
(the switch dispatches fft_window for types 0..3 and does nothing for
other values) and then computes the reconstruction scale factor as the
inner product of the two windows over block_size entries divided by
block_size. -/
def stft_p_pre_and_post_window (gen : ℕ → ℕ → ℕ → ℚ) (self : STFTprocessor) :
    STFTprocessor :=
  let iw := if self.window_option_input < 4 then
      fft_window_write gen self.input_window self.block_size self.window_option_input
    else self.input_window
  let ow := if self.window_option_output < 4 then
      fft_window_write gen self.output_window self.block_size self.window_option_output
    else self.output_window
  { self with
    input_window := iw
    output_window := ow
    overlap_scale_factor := dot_sum iw ow self.block_size / (self.block_size : ℚ) }

/-- stft_p_zeropad: for k = 0 .. (fft_size - block_size) - 1 the C loop
writes input_fft_buffer[block_size - 1 + k] = 0, i.e. it zeroes exactly
the indices block_size - 1 .. block_size - 1 + (fft_size - block_size) - 1. -/
def stft_p_zeropad (self : STFTprocessor) : STFTprocessor :=
  { self with input_fft_buffer := fun i =>
      if self.block_size - 1 ≤ i ∧ i < self.block_size - 1 + (self.fft_size - self.block_size)
      then 0 else self.input_fft_buffer i }

/-- The zero-padding guard at the top of stft_p_analysis. -/
def analysis_padded (self : STFTprocessor) : STFTprocessor :=
  if self.block_size < self.fft_size then stft_p_zeropad self else self

/-- The windowing loop of stft_p_analysis: every entry below fft_size is
multiplied by the input window coefficient at the same index. -/
def analysis_windowed (self : STFTprocessor) : ℕ → ℚ :=
  fun k => if k < self.fft_size then self.input_fft_buffer k * self.input_window k
           else self.input_fft_buffer k

/-- stft_p_analysis: zero-pad if block_size < fft_size, window the frame,
then execute the forward transform into output_fft_buffer. -/
def stft_p_analysis (self : STFTprocessor) : STFTprocessor :=
  { analysis_padded self with
    input_fft_buffer := analysis_windowed (analysis_padded self)
    output_fft_buffer :=
      fftw_forward (analysis_padded self).fft_size
        (analysis_windowed (analysis_padded self)) }

/-- The value of input_fft_buffer after the three per-sample loops of
stft_p_synthesis: inverse transform, division by fft_size (for indices
below fft_size), then output windowing and division by
overlap_scale_factor * overlap_factor (for indices below fft_size). -/
def synth_frame (self : STFTprocessor) : ℕ → ℚ :=
  fun k =>
    let b0 := fftw_backward self.fft_size self.output_fft_buffer k
    let b1 := if k < self.fft_size then b0 / (self.fft_size : ℚ) else b0
    if k < self.fft_size then
      self.output_window k * b1 / (self.overlap_scale_factor * (self.overlap_factor : ℚ))
    else b1

/-- The output accumulator of stft_p_synthesis after the accumulation
loop (entries below block_size receive the synthesized frame). -/
def synth_accum1 (self : STFTprocessor) : ℕ → ℚ :=
  fun k => if k < self.block_size then self.output_accum k + synth_frame self k
           else self.output_accum k

/-- stft_p_synthesis: inverse transform, normalization, output windowing
and OLA scaling (all folded into synth_frame), accumulation into
output_accum, emission of the first hop accumulator entries into
out_fifo, memmove of the accumulator left by hop over block_size
entries, and the input FIFO shift left by hop over input_latency
entries. -/
def stft_p_synthesis (self : STFTprocessor) : STFTprocessor :=
  { self with
    input_fft_buffer := synth_frame self
    out_fifo := fun k => if k < self.hop then synth_accum1 self k else self.out_fifo k
    output_accum := fun k =>
      if k < self.block_size then synth_accum1 self (k + self.hop) else synth_accum1 self k
    in_fifo := fun k =>
      if k < self.input_latency then self.in_fifo (k + self.hop) else self.in_fifo k }

/-- stft_p_get_latency: returns input_latency. -/
def stft_p_get_latency (self : STFTprocessor) : ℕ :=
  self.input_latency

/-- stft_p_processing: hands output_fft_buffer and the enable flag to the
spectral stage.  Modelled from the spec: fft_p_run (fft_processor.c, not
under src/) is the opaque Spectral Stage operating in place on the
half-complex spectrum; it is the explicit parameter g here. -/
def stft_p_processing (g : (ℕ → ℚ) → ℚ → (ℕ → ℚ)) (self : STFTprocessor)
    (enable : ℚ) : STFTprocessor :=
  { self with output_fft_buffer := g self.output_fft_buffer enable }

/-- stft_p_reset: zero-fills the two fft scratch buffers, the two
windows, both FIFOs and the output accumulator (and nothing else). -/
def stft_p_reset (self : STFTprocessor) : STFTprocessor :=
  { self with
    input_fft_buffer := array_fill self.input_fft_buffer 0 self.fft_size
    output_fft_buffer := array_fill self.output_fft_buffer 0 self.fft_size
    input_window := array_fill self.input_window 0 self.fft_size
    output_window := array_fill self.output_window 0 self.fft_size
    in_fifo := array_fill self.in_fifo 0 self.block_size
    out_fifo := array_fill self.out_fifo 0 self.block_size
    output_accum := array_fill self.output_accum 0 (self.block_size * 2) }

/-- stft_p_init: configures the hardcoded sizes, hop and latency, zeroes
every buffer via stft_p_reset and generates windows and scale factor via
stft_p_pre_and_post_window.  Freshly malloc-ed buffer contents are
modelled as zero (they are zeroed by the reset before any read).  The
sample_rate argument is only handed to the external fft_p_init. -/
def stft_p_init (gen : ℕ → ℕ → ℕ → ℚ) ( sample_rate : ℕ) : STFTprocessor :=
  let self : STFTprocessor :=
    { fft_size := FFT_SIZE
      block_size := BLOCK_SIZE
      window_option_input := INPUT_WINDOW_TYPE
      window_option_output := OUTPUT_WINDOW_TYPE
      overlap_factor := OVERLAP_FACTOR
      overlap_scale_factor := 0
      hop := FFT_SIZE / OVERLAP_FACTOR
      input_latency := FFT_SIZE - FFT_SIZE / OVERLAP_FACTOR
      read_position := FFT_SIZE - FFT_SIZE / OVERLAP_FACTOR
      input_window := fun _ => 0
      output_window := fun _ => 0
      in_fifo := fun _ => 0
      out_fifo := fun _ => 0
      output_accum := fun _ => 0
      input_fft_buffer := fun _ => 0
      output_fft_buffer := fun _ => 0 }
  stft_p_pre_and_post_window gen (stft_p_reset self)

/-- The input FIFO after the per-sample push of stft_p_run: the input
sample v is written at index read_position. -/
def fifo_write (s : STFTprocessor) (v : ℚ) : ℕ → ℚ :=
  fun k => if k = s.read_position then v else s.in_fifo k

/-- The state handed to stft_p_analysis when a cycle triggers: the FIFO
(holding the just-pushed sample v) has been written, the first
block_size FIFO entries have been memcpy-ed into input_fft_buffer, and
read_position has been reset to input_latency.  (The intermediate
read_position increment to block_size is immediately overwritten.) -/
def cycle_load (s : STFTprocessor) (v : ℚ) : STFTprocessor :=
  { s with
    in_fifo := fifo_write s v
    read_position := s.input_latency
    input_fft_buffer := fun k =>
      if k < s.block_size then fifo_write s v k else s.input_fft_buffer k }

/-- The body of the per-sample loop of stft_p_run: push the input sample
at read_position, pop the output sample at read_position -
input_latency, advance read_position, and when it reaches block_size
copy the FIFO into the fft buffer, reset read_position to input_latency
and run one analysis, processing, synthesis cycle.  (The pop reads
out_fifo, which the push leaves untouched, so reading it before the
push as written here matches the C order.) -/
def stft_p_run_step (g : (ℕ → ℚ) → ℚ → (ℕ → ℚ)) (enable : ℚ)
    (self : STFTprocessor) (v : ℚ) : STFTprocessor × ℚ :=
  let y : ℚ := self.out_fifo (self.read_position - self.input_latency)
  if self.block_size ≤ self.read_position + 1 then
    (stft_p_synthesis (stft_p_processing g (stft_p_analysis (cycle_load self v)) enable), y)
  else
    ({ self with in_fifo := fifo_write self v, read_position := self.read_position + 1 }, y)

/-- stft_p_run: processes the list of input samples one by one, returning
the final state and the list of output samples (one output per input). -/
def stft_p_run (g : (ℕ → ℚ) → ℚ → (ℕ → ℚ)) (self : STFTprocessor)
    (input : List ℚ) (enable : ℚ) : STFTprocessor × List ℚ :=
  match input with
  | [] => (self, [])
  | v :: rest =>
      let sy := stft_p_run_step g enable self v
      let r2 := stft_p_run g sy.1 rest enable
      (r2.1, sy.2 :: r2.2)

/-- A public operation on an initialized STFT processor: one stft_p_run
call (with its input block and enable flag) or one stft_p_reset call. -/
inductive STFTop where
  | runOp (input : List ℚ) (enable : ℚ)
  | resetOp

/-- Execute one public operation. -/
def stft_p_exec (g : (ℕ → ℚ) → ℚ → (ℕ → ℚ)) (s : STFTprocessor) :
    STFTop → STFTprocessor
  | STFTop.runOp input e => (stft_p_run g s input e).1
  | STFTop.resetOp => stft_p_reset s

/-- Execute a sequence of public operations from a given state. -/
def stft_p_exec_list (g : (ℕ → ℚ) → ℚ → (ℕ → ℚ)) (s : STFTprocessor)
    (ops : List STFTop) : STFTprocessor :=
  ops.foldl (stft_p_exec g) s

/-- Feeding a stream through successive stft_p_run calls, one call per
block, collecting all outputs in order. -/
def stft_p_run_chunks (g : (ℕ → ℚ) → ℚ → (ℕ → ℚ)) (e : ℚ) :
    STFTprocessor → List (List ℚ) → STFTprocessor × List ℚ
  | s, [] => (s, [])
  | s, b :: bs =>
      let r1 := stft_p_run g s b e
      let r2 := stft_p_run_chunks g e r1.1 bs
      (r2.1, r1.2 ++ r2.2)

/-- The identity Spectral Stage (the no-op processing of the claims). -/
def idStage : (ℕ → ℚ) → ℚ → (ℕ → ℚ) := fun buf _ => buf

/-- The all-ones window generator, a concrete pure deterministic
instance of the Window Generator interface used for witnesses. -/
def gen1 : ℕ → ℕ → ℕ → ℚ := fun _ _ _ => 1

/-- The input signal extended with zeros: xval x off i is sample i - off
of x, reading 0 before the start of time (i < off) and beyond the end of
the list. -/
def xval (x : List ℚ) (off i : ℕ) : ℚ :=
  if i < off then 0 else x.getD (i - off) 0

/-- The net per-index gain of one analysis-identity-synthesis pass:
input window times output window divided by the OLA normalization
overlap_scale_factor * overlap_factor. -/
def win_prod (s : STFTprocessor) (k : ℕ) : ℚ :=
  s.input_window k * s.output_window k / (s.overlap_scale_factor * (s.overlap_factor : ℚ))

/-- The total OLA gain at offset r within a hop: the sum of win_prod over
the overlap_factor frames that overlap a given output position. -/
def ola_gain (s : STFTprocessor) (r : ℕ) : ℚ :=
  Finset.sum (Finset.range s.overlap_factor) (fun j => win_prod s (r + j * s.hop))

/-- The partial OLA gain still buffered in the output accumulator at
index k: the win_prod contributions of the frames that have not yet been
accumulated at that position. -/
def tail_gain (s : STFTprocessor) (k : ℕ) : ℚ :=
  Finset.sum (Finset.range (s.overlap_factor - k / s.hop - 1))
    (fun j => win_prod s (k + (j + 1) * s.hop))

/-- The configuration facts that hold for every state produced by
stft_p_init and are preserved by the public operations: block size
equals transform size, a positive hop dividing the transform size
overlap_factor times, the latency identity, and (for reconstruction)
unit OLA gain of the window pair at every offset. -/
structure GoodCfg (s : STFTprocessor) : Prop where
  fft_pos : 0 < s.fft_size
  hop_pos : 0 < s.hop
  block_eq : s.block_size = s.fft_size
  hop_mul : s.hop * s.overlap_factor = s.fft_size
  lat : s.input_latency = s.fft_size - s.hop
  cola : ∀ r, r < s.hop → ola_gain s r = 1

/-- The streaming invariant of the run loop with the identity spectral
stage.  p is the number of samples already consumed by completed cycles
(a multiple of hop) and u the number of samples pushed since the last
cycle; x is the whole input stream. -/
structure StreamInv (x : List ℚ) (p u : ℕ) (s : STFTprocessor) : Prop where
  cfg : GoodCfg s
  hu : u < s.hop
  rp : s.read_position = s.input_latency + u
  fifo : ∀ k, k < s.block_size →
    s.in_fifo k = if k < s.input_latency + u then xval x s.input_latency (p + k)
                  else xval x s.fft_size (p + k)
  ofifo : ∀ r, r < s.hop → s.out_fifo r = xval x s.fft_size (p + r)
  accum : ∀ k, k < s.block_size →
    s.output_accum k = xval x s.fft_size (p + s.hop + k) * tail_gain s k
  accum_tail : ∀ k, s.block_size ≤ k → s.output_accum k = 0

/-- A tiny concrete state (fft_size 4, block_size 2) exercising the
zero-padding path, with input_fft_buffer holding 1, 2, 3, 4, ... . -/
def zeropad_test_state : STFTprocessor :=
  { fft_size := 4
    block_size := 2
    window_option_input := 0
    window_option_output := 0
    overlap_factor := 2
    overlap_scale_factor := 1
    hop := 2
    input_latency := 2
    read_position := 2
    input_window := fun _ => 1
    output_window := fun _ => 1
    in_fifo := fun _ => 0
    out_fifo := fun _ => 0
    output_accum := fun _ => 0
    input_fft_buffer := fun k => (k : ℚ) + 1
    output_fft_buffer := fun _ => 0 }

/-- A tiny concrete state (block_size 4, read_position 3) one push away
from triggering a cycle, for the trigger witnesses. -/
def trigger_test_state : STFTprocessor :=
  { fft_size := 4
    block_size := 4
    window_option_input := 0
    window_option_output := 0
    overlap_factor := 2
    overlap_scale_factor := 1
    hop := 2
    input_latency := 2
    read_position := 3
    input_window := fun _ => 1
    output_window := fun _ => 1
    in_fifo := fun _ => 0
    out_fifo := fun _ => 0
    output_accum := fun _ => 0
    input_fft_buffer := fun _ => 0
    output_fft_buffer := fun _ => 0 }

/-
Projection lemmas: how each translated operation acts on each struct
field.
-/

@[simp] lemma zeropad_fft_size (s : STFTprocessor) :
    (stft_p_zeropad s).fft_size = s.fft_size := rfl

@[simp] lemma zeropad_block_size (s : STFTprocessor) :
    (stft_p_zeropad s).block_size = s.block_size := rfl

@[simp] lemma zeropad_hop (s : STFTprocessor) : (stft_p_zeropad s).hop = s.hop := rfl

@[simp] lemma zeropad_input_latency (s : STFTprocessor) :
    (stft_p_zeropad s).input_latency = s.input_latency := rfl

@[simp] lemma zeropad_read_position (s : STFTprocessor) :
    (stft_p_zeropad s).read_position = s.read_position := rfl

@[simp] lemma zeropad_overlap_factor (s : STFTprocessor) :
    (stft_p_zeropad s).overlap_factor = s.overlap_factor := rfl

@[simp] lemma zeropad_overlap_scale_factor (s : STFTprocessor) :
    (stft_p_zeropad s).overlap_scale_factor = s.overlap_scale_factor := rfl

@[simp] lemma zeropad_input_window (s : STFTprocessor) :
    (stft_p_zeropad s).input_window = s.input_window := rfl

@[simp] lemma zeropad_output_window (s : STFTprocessor) :
    (stft_p_zeropad s).output_window = s.output_window := rfl

@[simp] lemma zeropad_in_fifo (s : STFTprocessor) :
    (stft_p_zeropad s).in_fifo = s.in_fifo := rfl

@[simp] lemma zeropad_out_fifo (s : STFTprocessor) :
    (stft_p_zeropad s).out_fifo = s.out_fifo := rfl

@[simp] lemma zeropad_output_accum (s : STFTprocessor) :
    (stft_p_zeropad s).output_accum = s.output_accum := rfl

@[simp] lemma zeropad_output_fft_buffer (s : STFTprocessor) :
    (stft_p_zeropad s).output_fft_buffer = s.output_fft_buffer := rfl

@[simp] lemma zeropad_window_option_input (s : STFTprocessor) :
    (stft_p_zeropad s).window_option_input = s.window_option_input := rfl

@[simp] lemma zeropad_window_option_output (s : STFTprocessor) :
    (stft_p_zeropad s).window_option_output = s.window_option_output := rfl

lemma analysis_padded_of_eq {s : STFTprocessor} (h : s.block_size = s.fft_size) :
    analysis_padded s = s := by
  unfold analysis_padded
  rw [if_neg (by omega)]

@[simp] lemma analysis_padded_fft_size (s : STFTprocessor) :
    (analysis_padded s).fft_size = s.fft_size := by
  unfold analysis_padded; split <;> rfl

@[simp] lemma analysis_padded_block_size (s : STFTprocessor) :
    (analysis_padded s).block_size = s.block_size := by
  unfold analysis_padded; split <;> rfl

@[simp] lemma analysis_padded_hop (s : STFTprocessor) :
    (analysis_padded s).hop = s.hop := by
  unfold analysis_padded; split <;> rfl

@[simp] lemma analysis_padded_input_latency (s : STFTprocessor) :
    (analysis_padded s).input_latency = s.input_latency := by
  unfold analysis_padded; split <;> rfl

@[simp] lemma analysis_padded_read_position (s : STFTprocessor) :
    (analysis_padded s).read_position = s.read_position := by
  unfold analysis_padded; split <;> rfl

@[simp] lemma analysis_padded_overlap_factor (s : STFTprocessor) :
    (analysis_padded s).overlap_factor = s.overlap_factor := by
  unfold analysis_padded; split <;> rfl

@[simp] lemma analysis_padded_overlap_scale_factor (s : STFTprocessor) :
    (analysis_padded s).overlap_scale_factor = s.overlap_scale_factor := by
  unfold analysis_padded; split <;> rfl

@[simp] lemma analysis_padded_input_window (s : STFTprocessor) :
    (analysis_padded s).input_window = s.input_window := by
  unfold analysis_padded; split <;> rfl

@[simp] lemma analysis_padded_output_window (s : STFTprocessor) :
    (analysis_padded s).output_window = s.output_window := by
  unfold analysis_padded; split <;> rfl

@[simp] lemma analysis_padded_in_fifo (s : STFTprocessor) :
    (analysis_padded s).in_fifo = s.in_fifo := by
  unfold analysis_padded; split <;> rfl

@[simp] lemma analysis_padded_out_fifo (s : STFTprocessor) :
    (analysis_padded s).out_fifo = s.out_fifo := by
  unfold analysis_padded; split <;> rfl

@[simp] lemma analysis_padded_output_accum (s : STFTprocessor) :
    (analysis_padded s).output_accum = s.output_accum := by
  unfold analysis_padded; split <;> rfl

@[simp] lemma analysis_padded_output_fft_buffer (s : STFTprocessor) :
    (analysis_padded s).output_fft_buffer = s.output_fft_buffer := by
  unfold analysis_padded; split <;> rfl

@[simp] lemma analysis_padded_window_option_input (s : STFTprocessor) :
    (analysis_padded s).window_option_input = s.window_option_input := by
  unfold analysis_padded; split <;> rfl

@[simp] lemma analysis_padded_window_option_output (s : STFTprocessor) :
    (analysis_padded s).window_option_output = s.window_option_output := by
  unfold analysis_padded; split <;> rfl

@[simp] lemma analysis_fft_size (s : STFTprocessor) :
    (stft_p_analysis s).fft_size = s.fft_size := by
  unfold stft_p_analysis; simp

@[simp] lemma analysis_block_size (s : STFTprocessor) :
    (stft_p_analysis s).block_size = s.block_size := by
  unfold stft_p_analysis; simp

@[simp] lemma analysis_hop (s : STFTprocessor) : (stft_p_analysis s).hop = s.hop := by
  unfold stft_p_analysis; simp

@[simp] lemma analysis_input_latency (s : STFTprocessor) :
    (stft_p_analysis s).input_latency = s.input_latency := by
  unfold stft_p_analysis; simp

@[simp] lemma analysis_read_position (s : STFTprocessor) :
    (stft_p_analysis s).read_position = s.read_position := by
  unfold stft_p_analysis; simp

@[simp] lemma analysis_overlap_factor (s : STFTprocessor) :
    (stft_p_analysis s).overlap_factor = s.overlap_factor := by
  unfold stft_p_analysis; simp

@[simp] lemma analysis_overlap_scale_factor (s : STFTprocessor) :
    (stft_p_analysis s).overlap_scale_factor = s.overlap_scale_factor := by
  unfold stft_p_analysis; simp

@[simp] lemma analysis_input_window (s : STFTprocessor) :
    (stft_p_analysis s).input_window = s.input_window := by
  unfold stft_p_analysis; simp

@[simp] lemma analysis_output_window (s : STFTprocessor) :
    (stft_p_analysis s).output_window = s.output_window := by
  unfold stft_p_analysis; simp

@[simp] lemma analysis_in_fifo (s : STFTprocessor) :
    (stft_p_analysis s).in_fifo = s.in_fifo := by
  unfold stft_p_analysis; simp

@[simp] lemma analysis_out_fifo (s : STFTprocessor) :
    (stft_p_analysis s).out_fifo = s.out_fifo := by
  unfold stft_p_analysis; simp

@[simp] lemma analysis_output_accum (s : STFTprocessor) :
    (stft_p_analysis s).output_accum = s.output_accum := by
  unfold stft_p_analysis; simp

@[simp] lemma analysis_window_option_input (s : STFTprocessor) :
    (stft_p_analysis s).window_option_input = s.window_option_input := by
  unfold stft_p_analysis; simp

@[simp] lemma analysis_window_option_output (s : STFTprocessor) :
    (stft_p_analysis s).window_option_output = s.window_option_output := by
  unfold stft_p_analysis; simp

@[simp] lemma analysis_output_fft_buffer (s : STFTprocessor) :
    (stft_p_analysis s).output_fft_buffer
      = analysis_windowed (analysis_padded s) := rfl

@[simp] lemma processing_fft_size (g e) (s : STFTprocessor) :
    (stft_p_processing g s e).fft_size = s.fft_size := rfl

@[simp] lemma processing_block_size (g e) (s : STFTprocessor) :
    (stft_p_processing g s e).block_size = s.block_size := rfl

@[simp] lemma processing_hop (g e) (s : STFTprocessor) :
    (stft_p_processing g s e).hop = s.hop := rfl

@[simp] lemma processing_input_latency (g e) (s : STFTprocessor) :
    (stft_p_processing g s e).input_latency = s.input_latency := rfl

@[simp] lemma processing_read_position (g e) (s : STFTprocessor) :
    (stft_p_processing g s e).read_position = s.read_position := rfl

@[simp] lemma processing_overlap_factor (g e) (s : STFTprocessor) :
    (stft_p_processing g s e).overlap_factor = s.overlap_factor := rfl

@[simp] lemma processing_overlap_scale_factor (g e) (s : STFTprocessor) :
    (stft_p_processing g s e).overlap_scale_factor = s.overlap_scale_factor := rfl

@[simp] lemma processing_input_window (g e) (s : STFTprocessor) :
    (stft_p_processing g s e).input_window = s.input_window := rfl

@[simp] lemma processing_output_window (g e) (s : STFTprocessor) :
    (stft_p_processing g s e).output_window = s.output_window := rfl

@[simp] lemma processing_in_fifo (g e) (s : STFTprocessor) :
    (stft_p_processing g s e).in_fifo = s.in_fifo := rfl

@[simp] lemma processing_out_fifo (g e) (s : STFTprocessor) :
    (stft_p_processing g s e).out_fifo = s.out_fifo := rfl

@[simp] lemma processing_output_accum (g e) (s : STFTprocessor) :
    (stft_p_processing g s e).output_accum = s.output_accum := rfl

@[simp] lemma processing_input_fft_buffer (g e) (s : STFTprocessor) :
    (stft_p_processing g s e).input_fft_buffer = s.input_fft_buffer := rfl

@[simp] lemma processing_window_option_input (g e) (s : STFTprocessor) :
    (stft_p_processing g s e).window_option_input = s.window_option_input := rfl

@[simp] lemma processing_window_option_output (g e) (s : STFTprocessor) :
    (stft_p_processing g s e).window_option_output = s.window_option_output := rfl

@[simp] lemma processing_output_fft_buffer (g e) (s : STFTprocessor) :
    (stft_p_processing g s e).output_fft_buffer = g s.output_fft_buffer e := rfl

@[simp] lemma synthesis_fft_size (s : STFTprocessor) :
    (stft_p_synthesis s).fft_size = s.fft_size := rfl

@[simp] lemma synthesis_block_size (s : STFTprocessor) :
    (stft_p_synthesis s).block_size = s.block_size := rfl

@[simp] lemma synthesis_hop (s : STFTprocessor) :
    (stft_p_synthesis s).hop = s.hop := rfl

@[simp] lemma synthesis_input_latency (s : STFTprocessor) :
    (stft_p_synthesis s).input_latency = s.input_latency := rfl

@[simp] lemma synthesis_read_position (s : STFTprocessor) :
    (stft_p_synthesis s).read_position = s.read_position := rfl

@[simp] lemma synthesis_overlap_factor (s : STFTprocessor) :
    (stft_p_synthesis s).overlap_factor = s.overlap_factor := rfl

@[simp] lemma synthesis_overlap_scale_factor (s : STFTprocessor) :
    (stft_p_synthesis s).overlap_scale_factor = s.overlap_scale_factor := rfl

@[simp] lemma synthesis_input_window (s : STFTprocessor) :
    (stft_p_synthesis s).input_window = s.input_window := rfl

@[simp] lemma synthesis_output_window (s : STFTprocessor) :
    (stft_p_synthesis s).output_window = s.output_window := rfl

@[simp] lemma synthesis_window_option_input (s : STFTprocessor) :
    (stft_p_synthesis s).window_option_input = s.window_option_input := rfl

@[simp] lemma synthesis_window_option_output (s : STFTprocessor) :
    (stft_p_synthesis s).window_option_output = s.window_option_output := rfl

@[simp] lemma synthesis_output_fft_buffer (s : STFTprocessor) :
    (stft_p_synthesis s).output_fft_buffer = s.output_fft_buffer := rfl

lemma synthesis_in_fifo (s : STFTprocessor) (k : ℕ) :
    (stft_p_synthesis s).in_fifo k
      = if k < s.input_latency then s.in_fifo (k + s.hop) else s.in_fifo k := rfl

lemma synthesis_out_fifo (s : STFTprocessor) (k : ℕ) :
    (stft_p_synthesis s).out_fifo k
      = if k < s.hop then synth_accum1 s k else s.out_fifo k := rfl

lemma synthesis_output_accum (s : STFTprocessor) (k : ℕ) :
    (stft_p_synthesis s).output_accum k
      = if k < s.block_size then synth_accum1 s (k + s.hop) else synth_accum1 s k := rfl

@[simp] lemma reset_fft_size (s : STFTprocessor) :
    (stft_p_reset s).fft_size = s.fft_size := rfl

@[simp] lemma reset_block_size (s : STFTprocessor) :
    (stft_p_reset s).block_size = s.block_size := rfl

@[simp] lemma reset_hop (s : STFTprocessor) : (stft_p_reset s).hop = s.hop := rfl

@[simp] lemma reset_input_latency (s : STFTprocessor) :
    (stft_p_reset s).input_latency = s.input_latency := rfl

@[simp] lemma reset_read_position (s : STFTprocessor) :
    (stft_p_reset s).read_position = s.read_position := rfl

@[simp] lemma reset_overlap_factor (s : STFTprocessor) :
    (stft_p_reset s).overlap_factor = s.overlap_factor := rfl

@[simp] lemma reset_overlap_scale_factor (s : STFTprocessor) :
    (stft_p_reset s).overlap_scale_factor = s.overlap_scale_factor := rfl

@[simp] lemma reset_input_window (s : STFTprocessor) :
    (stft_p_reset s).input_window = array_fill s.input_window 0 s.fft_size := rfl

@[simp] lemma reset_output_window (s : STFTprocessor) :
    (stft_p_reset s).output_window = array_fill s.output_window 0 s.fft_size := rfl

@[simp] lemma reset_in_fifo (s : STFTprocessor) :
    (stft_p_reset s).in_fifo = array_fill s.in_fifo 0 s.block_size := rfl

@[simp] lemma reset_out_fifo (s : STFTprocessor) :
    (stft_p_reset s).out_fifo = array_fill s.out_fifo 0 s.block_size := rfl

@[simp] lemma reset_output_accum (s : STFTprocessor) :
    (stft_p_reset s).output_accum = array_fill s.output_accum 0 (s.block_size * 2) := rfl

@[simp] lemma cycle_load_fft_size (s : STFTprocessor) (v : ℚ) :
    (cycle_load s v).fft_size = s.fft_size := rfl

@[simp] lemma cycle_load_block_size (s : STFTprocessor) (v : ℚ) :
    (cycle_load s v).block_size = s.block_size := rfl

@[simp] lemma cycle_load_hop (s : STFTprocessor) (v : ℚ) :
    (cycle_load s v).hop = s.hop := rfl

@[simp] lemma cycle_load_input_latency (s : STFTprocessor) (v : ℚ) :
    (cycle_load s v).input_latency = s.input_latency := rfl

@[simp] lemma cycle_load_read_position (s : STFTprocessor) (v : ℚ) :
    (cycle_load s v).read_position = s.input_latency := rfl

@[simp] lemma cycle_load_overlap_factor (s : STFTprocessor) (v : ℚ) :
    (cycle_load s v).overlap_factor = s.overlap_factor := rfl

@[simp] lemma cycle_load_overlap_scale_factor (s : STFTprocessor) (v : ℚ) :
    (cycle_load s v).overlap_scale_factor = s.overlap_scale_factor := rfl

@[simp] lemma cycle_load_input_window (s : STFTprocessor) (v : ℚ) :
    (cycle_load s v).input_window = s.input_window := rfl

@[simp] lemma cycle_load_output_window (s : STFTprocessor) (v : ℚ) :
    (cycle_load s v).output_window = s.output_window := rfl

@[simp] lemma cycle_load_in_fifo (s : STFTprocessor) (v : ℚ) :
    (cycle_load s v).in_fifo = fifo_write s v := rfl

@[simp] lemma cycle_load_out_fifo (s : STFTprocessor) (v : ℚ) :
    (cycle_load s v).out_fifo = s.out_fifo := rfl

@[simp] lemma cycle_load_output_accum (s : STFTprocessor) (v : ℚ) :
    (cycle_load s v).output_accum = s.output_accum := rfl

@[simp] lemma cycle_load_window_option_input (s : STFTprocessor) (v : ℚ) :
    (cycle_load s v).window_option_input = s.window_option_input := rfl

@[simp] lemma cycle_load_window_option_output (s : STFTprocessor) (v : ℚ) :
    (cycle_load s v).window_option_output = s.window_option_output := rfl

lemma run_step_snd (g e) (s : STFTprocessor) (v : ℚ) :
    (stft_p_run_step g e s v).2
      = s.out_fifo (s.read_position - s.input_latency) := by
  unfold stft_p_run_step; split <;> rfl

lemma run_step_cycle (g e) (s : STFTprocessor) (v : ℚ)
    (h : s.block_size ≤ s.read_position + 1) :
    (stft_p_run_step g e s v).1
      = stft_p_synthesis (stft_p_processing g (stft_p_analysis (cycle_load s v)) e) := by
  unfold stft_p_run_step
  rw [if_pos h]

lemma run_step_no_cycle (g e) (s : STFTprocessor) (v : ℚ)
    (h : ¬ s.block_size ≤ s.read_position + 1) :
    (stft_p_run_step g e s v).1
      = { s with in_fifo := fifo_write s v, read_position := s.read_position + 1 } := by
  unfold stft_p_run_step
  rw [if_neg h]

/-
Arithmetic facts about the extended signal, the window gains, and the
configuration.
-/

lemma xval_lt {x : List ℚ} {off i : ℕ} (h : i < off) : xval x off i = 0 := by
  unfold xval; rw [if_pos h]

lemma xval_ge {x : List ℚ} {off i : ℕ} (h : off ≤ i) :
    xval x off i = x.getD (i - off) 0 := by
  unfold xval; rw [if_neg (by omega)]

lemma xval_shift (x : List ℚ) (off i d : ℕ) :
    xval x off i = xval x (off + d) (i + d) := by
  unfold xval
  have h1 : i < off ↔ i + d < off + d := by omega
  by_cases h : i < off
  · rw [if_pos h, if_pos (h1.mp h)]
  · rw [if_neg h, if_neg (fun hc => h (h1.mpr hc))]
    congr 1
    omega

lemma GoodCfg.ov_pos {s : STFTprocessor} (c : GoodCfg s) : 0 < s.overlap_factor := by
  rcases Nat.eq_zero_or_pos s.overlap_factor with h | h
  · exfalso
    have hm := c.hop_mul
    have hf := c.fft_pos
    rw [h, Nat.mul_zero] at hm
    omega
  · exact h

lemma GoodCfg.hop_le {s : STFTprocessor} (c : GoodCfg s) : s.hop ≤ s.fft_size := by
  have h := c.hop_mul
  have h2 := c.ov_pos
  calc s.hop = s.hop * 1 := by ring
  _ ≤ s.hop * s.overlap_factor := Nat.mul_le_mul_left _ h2
  _ = s.fft_size := h

lemma GoodCfg.lat_add {s : STFTprocessor} (c : GoodCfg s) :
    s.input_latency + s.hop = s.fft_size := by
  have h1 := c.lat
  have h2 := c.hop_le
  omega

lemma GoodCfg.lat_lt {s : STFTprocessor} (c : GoodCfg s) :
    s.input_latency < s.fft_size := by
  have h1 := c.lat
  have h2 := c.hop_pos
  have h3 := c.fft_pos
  omega

lemma GoodCfg.ov_pred_mul {s : STFTprocessor} (c : GoodCfg s) :
    (s.overlap_factor - 1) * s.hop = s.fft_size - s.hop := by
  calc (s.overlap_factor - 1) * s.hop
      = s.overlap_factor * s.hop - 1 * s.hop := Nat.sub_mul _ _ _
  _ = s.hop * s.overlap_factor - s.hop := by
      rw [one_mul, Nat.mul_comm s.overlap_factor s.hop]
  _ = s.fft_size - s.hop := by rw [c.hop_mul]

lemma tail_gain_zero {s : STFTprocessor} (c : GoodCfg s) {k : ℕ}
    (h : s.fft_size ≤ k + s.hop) : tail_gain s k = 0 := by
  have hov : s.overlap_factor - 1 ≤ k / s.hop := by
    apply (Nat.le_div_iff_mul_le c.hop_pos).mpr
    rw [c.ov_pred_mul]
    omega
  have hzero : s.overlap_factor - k / s.hop - 1 = 0 := by omega
  unfold tail_gain
  rw [hzero]
  simp

lemma tail_gain_shift {s : STFTprocessor} (c : GoodCfg s) {k : ℕ}
    (h : k + s.hop < s.fft_size) :
    tail_gain s (k + s.hop) + win_prod s (k + s.hop) = tail_gain s k := by
  have hub : k < (s.overlap_factor - 1) * s.hop := by
    rw [c.ov_pred_mul]
    have := c.hop_le
    omega
  have hlt : k / s.hop < s.overlap_factor - 1 :=
    (Nat.div_lt_iff_lt_mul c.hop_pos).mpr hub
  have hq : (k + s.hop) / s.hop = k / s.hop + 1 := Nat.add_div_right k c.hop_pos
  unfold tail_gain
  rw [hq]
  generalize hq0 : k / s.hop = q at hlt ⊢
  have hn2 : s.overlap_factor - (q + 1) - 1 = s.overlap_factor - q - 2 := by omega
  have hn : s.overlap_factor - q - 1 = (s.overlap_factor - q - 2) + 1 := by omega
  rw [hn2, hn, Finset.sum_range_succ']
  congr 1
  · apply Finset.sum_congr rfl
    intro j _
    congr 1
    ring
  · congr 1
    ring

lemma tail_gain_bot {s : STFTprocessor} (c : GoodCfg s) {r : ℕ} (h : r < s.hop) :
    tail_gain s r + win_prod s r = 1 := by
  have hq : r / s.hop = 0 := Nat.div_eq_of_lt h
  have hcola := c.cola r h
  unfold ola_gain at hcola
  unfold tail_gain
  rw [hq]
  have hov : s.overlap_factor = (s.overlap_factor - 1) + 1 := by
    have := c.ov_pos; omega
  rw [hov] at hcola
  rw [Finset.sum_range_succ'] at hcola
  have hz : r + 0 * s.hop = r := by ring
  rw [hz] at hcola
  have hn : s.overlap_factor - 0 - 1 = s.overlap_factor - 1 := by omega
  rw [hn]
  exact hcola

/-
Preservation of the configuration fields and windows by the public
operations.
-/

lemma run_step_cfg (g e) (s : STFTprocessor) (v : ℚ) :
    (stft_p_run_step g e s v).1.fft_size = s.fft_size
    ∧ (stft_p_run_step g e s v).1.block_size = s.block_size
    ∧ (stft_p_run_step g e s v).1.hop = s.hop
    ∧ (stft_p_run_step g e s v).1.input_latency = s.input_latency
    ∧ (stft_p_run_step g e s v).1.overlap_factor = s.overlap_factor
    ∧ (stft_p_run_step g e s v).1.overlap_scale_factor = s.overlap_scale_factor
    ∧ (stft_p_run_step g e s v).1.input_window = s.input_window
    ∧ (stft_p_run_step g e s v).1.output_window = s.output_window
    ∧ (stft_p_run_step g e s v).1.window_option_input = s.window_option_input
    ∧ (stft_p_run_step g e s v).1.window_option_output = s.window_option_output := by
  by_cases h : s.block_size ≤ s.read_position + 1
  · rw [run_step_cycle g e s v h]
    simp
  · rw [run_step_no_cycle g e s v h]
    exact ⟨rfl, rfl, rfl, rfl, rfl, rfl, rfl, rfl, rfl, rfl⟩

@[simp] lemma run_nil (g e) (s : STFTprocessor) : stft_p_run g s [] e = (s, []) := rfl

lemma run_cons (g e) (s : STFTprocessor) (v : ℚ) (rest : List ℚ) :
    stft_p_run g s (v :: rest) e
      = ((stft_p_run g (stft_p_run_step g e s v).1 rest e).1,
         (stft_p_run_step g e s v).2
           :: (stft_p_run g (stft_p_run_step g e s v).1 rest e).2) := rfl

lemma run_cfg (g) (input : List ℚ) (e) : ∀ (s : STFTprocessor),
    (stft_p_run g s input e).1.fft_size = s.fft_size
    ∧ (stft_p_run g s input e).1.block_size = s.block_size
    ∧ (stft_p_run g s input e).1.hop = s.hop
    ∧ (stft_p_run g s input e).1.input_latency = s.input_latency
    ∧ (stft_p_run g s input e).1.overlap_factor = s.overlap_factor
    ∧ (stft_p_run g s input e).1.overlap_scale_factor = s.overlap_scale_factor
    ∧ (stft_p_run g s input e).1.input_window = s.input_window
    ∧ (stft_p_run g s input e).1.output_window = s.output_window
    ∧ (stft_p_run g s input e).1.window_option_input = s.window_option_input
    ∧ (stft_p_run g s input e).1.window_option_output = s.window_option_output := by
  induction input with
  | nil => intro s; exact ⟨rfl, rfl, rfl, rfl, rfl, rfl, rfl, rfl, rfl, rfl⟩
  | cons v rest ih =>
      intro s
      obtain ⟨a1, a2, a3, a4, a5, a6, a7, a8, a9, a10⟩ := run_step_cfg g e s v
      obtain ⟨b1, b2, b3, b4, b5, b6, b7, b8, b9, b10⟩ := ih (stft_p_run_step g e s v).1
      rw [run_cons]
      exact ⟨b1.trans a1, b2.trans a2, b3.trans a3, b4.trans a4, b5.trans a5,
        b6.trans a6, b7.trans a7, b8.trans a8, b9.trans a9, b10.trans a10⟩

/-
What one triggered cycle does to each buffer.
-/

@[simp] lemma cycle_load_input_fft_buffer (s : STFTprocessor) (v : ℚ) :
    (cycle_load s v).input_fft_buffer
      = fun k => if k < s.block_size then fifo_write s v k else s.input_fft_buffer k := rfl

lemma cycle_read_position (g e) {s : STFTprocessor} (v : ℚ)
    (hrp : s.block_size ≤ s.read_position + 1) :
    (stft_p_run_step g e s v).1.read_position = s.input_latency := by
  rw [run_step_cycle g e s v hrp]
  simp

lemma cycle_in_fifo (g e) {s : STFTprocessor} (v : ℚ)
    (hrp : s.block_size ≤ s.read_position + 1) (k : ℕ) :
    (stft_p_run_step g e s v).1.in_fifo k
      = if k < s.input_latency then fifo_write s v (k + s.hop) else fifo_write s v k := by
  rw [run_step_cycle g e s v hrp, synthesis_in_fifo]
  simp

lemma cycle_out_fifo (g e) {s : STFTprocessor} (v : ℚ)
    (hrp : s.block_size ≤ s.read_position + 1) (r : ℕ) :
    (stft_p_run_step g e s v).1.out_fifo r
      = if r < s.hop then
          synth_accum1 (stft_p_processing g (stft_p_analysis (cycle_load s v)) e) r
        else s.out_fifo r := by
  rw [run_step_cycle g e s v hrp, synthesis_out_fifo]
  simp

lemma cycle_output_accum (g e) {s : STFTprocessor} (v : ℚ)
    (hrp : s.block_size ≤ s.read_position + 1) (k : ℕ) :
    (stft_p_run_step g e s v).1.output_accum k
      = if k < s.block_size then
          synth_accum1 (stft_p_processing g (stft_p_analysis (cycle_load s v)) e) (k + s.hop)
        else
          synth_accum1 (stft_p_processing g (stft_p_analysis (cycle_load s v)) e) k := by
  rw [run_step_cycle g e s v hrp, synthesis_output_accum]
  simp

lemma no_cycle_read_position (g e) {s : STFTprocessor} (v : ℚ)
    (h : ¬ s.block_size ≤ s.read_position + 1) :
    (stft_p_run_step g e s v).1.read_position = s.read_position + 1 := by
  rw [run_step_no_cycle g e s v h]

lemma no_cycle_in_fifo (g e) {s : STFTprocessor} (v : ℚ)
    (h : ¬ s.block_size ≤ s.read_position + 1) :
    (stft_p_run_step g e s v).1.in_fifo = fifo_write s v := by
  rw [run_step_no_cycle g e s v h]

lemma no_cycle_out_fifo (g e) {s : STFTprocessor} (v : ℚ)
    (h : ¬ s.block_size ≤ s.read_position + 1) :
    (stft_p_run_step g e s v).1.out_fifo = s.out_fifo := by
  rw [run_step_no_cycle g e s v h]

lemma no_cycle_output_accum (g e) {s : STFTprocessor} (v : ℚ)
    (h : ¬ s.block_size ≤ s.read_position + 1) :
    (stft_p_run_step g e s v).1.output_accum = s.output_accum := by
  rw [run_step_no_cycle g e s v h]

lemma accum1_ge (g e) (s : STFTprocessor) (v : ℚ) {j : ℕ} (hj : s.block_size ≤ j) :
    synth_accum1 (stft_p_processing g (stft_p_analysis (cycle_load s v)) e) j
      = s.output_accum j := by
  unfold synth_accum1
  simp only [processing_block_size, analysis_block_size, cycle_load_block_size,
    processing_output_accum, analysis_output_accum, cycle_load_output_accum]
  rw [if_neg (by omega)]

lemma cycle_synth_frame_id (e : ℚ) {s : STFTprocessor} (v : ℚ)
    (hb : s.block_size = s.fft_size) (hN : 0 < s.fft_size) {j : ℕ}
    (hj : j < s.fft_size) :
    synth_frame (stft_p_processing idStage (stft_p_analysis (cycle_load s v)) e) j
      = win_prod s j * fifo_write s v j := by
  have hNQ : (s.fft_size : ℚ) ≠ 0 := Nat.cast_ne_zero.mpr (by omega)
  have hout : (stft_p_processing idStage (stft_p_analysis (cycle_load s v)) e).output_fft_buffer
      = analysis_windowed (cycle_load s v) := by
    rw [processing_output_fft_buffer, analysis_output_fft_buffer,
      analysis_padded_of_eq (show (cycle_load s v).block_size = (cycle_load s v).fft_size from hb)]
    rfl
  unfold synth_frame fftw_backward
  simp only [processing_fft_size, analysis_fft_size, cycle_load_fft_size,
    processing_output_window, analysis_output_window, cycle_load_output_window,
    processing_overlap_scale_factor, analysis_overlap_scale_factor,
    cycle_load_overlap_scale_factor, processing_overlap_factor,
    analysis_overlap_factor, cycle_load_overlap_factor, hout]
  rw [if_pos hj, if_pos hj, mul_div_cancel_left₀ _ hNQ]
  unfold analysis_windowed
  simp only [cycle_load_fft_size, cycle_load_input_window, cycle_load_input_fft_buffer]
  rw [if_pos hj, if_pos (show j < s.block_size by omega)]
  unfold win_prod
  ring

lemma cycle_accum1_id (e : ℚ) {s : STFTprocessor} (v : ℚ)
    (hb : s.block_size = s.fft_size) (hN : 0 < s.fft_size) (j : ℕ) :
    synth_accum1 (stft_p_processing idStage (stft_p_analysis (cycle_load s v)) e) j
      = if j < s.block_size then s.output_accum j + win_prod s j * fifo_write s v j
        else s.output_accum j := by
  by_cases hj : j < s.block_size
  · unfold synth_accum1
    simp only [processing_block_size, analysis_block_size, cycle_load_block_size,
      processing_output_accum, analysis_output_accum, cycle_load_output_accum]
    rw [if_pos hj, if_pos hj, cycle_synth_frame_id e v hb hN (by omega)]
  · rw [if_neg hj]
    exact accum1_ge idStage e s v (by omega)

lemma win_prod_eq_of_cfg {t s : STFTprocessor}
    (h1 : t.input_window = s.input_window) (h2 : t.output_window = s.output_window)
    (h3 : t.overlap_scale_factor = s.overlap_scale_factor)
    (h4 : t.overlap_factor = s.overlap_factor) :
    win_prod t = win_prod s := by
  funext k
  unfold win_prod
  rw [h1, h2, h3, h4]

lemma tail_gain_eq_of_cfg {t s : STFTprocessor}
    (h1 : t.input_window = s.input_window) (h2 : t.output_window = s.output_window)
    (h3 : t.overlap_scale_factor = s.overlap_scale_factor)
    (h4 : t.overlap_factor = s.overlap_factor) (h5 : t.hop = s.hop) :
    tail_gain t = tail_gain s := by
  funext k
  unfold tail_gain
  simp only [win_prod_eq_of_cfg h1 h2 h3 h4, h4, h5]

lemma ola_gain_eq_of_cfg {t s : STFTprocessor}
    (h1 : t.input_window = s.input_window) (h2 : t.output_window = s.output_window)
    (h3 : t.overlap_scale_factor = s.overlap_scale_factor)
    (h4 : t.overlap_factor = s.overlap_factor) (h5 : t.hop = s.hop) :
    ola_gain t = ola_gain s := by
  funext k
  unfold ola_gain
  simp only [win_prod_eq_of_cfg h1 h2 h3 h4, h4, h5]

lemma goodcfg_step (g e) (v : ℚ) {s : STFTprocessor} (c : GoodCfg s) :
    GoodCfg (stft_p_run_step g e s v).1 := by
  obtain ⟨a1, a2, a3, a4, a5, a6, a7, a8, _, _⟩ := run_step_cfg g e s v
  constructor
  · rw [a1]; exact c.fft_pos
  · rw [a3]; exact c.hop_pos
  · rw [a2, a1]; exact c.block_eq
  · rw [a3, a5, a1]; exact c.hop_mul
  · rw [a4, a1, a3]; exact c.lat
  · intro r hr
    rw [a3] at hr
    rw [ola_gain_eq_of_cfg a7 a8 a6 a5 a3]
    exact c.cola r hr

/-- One step of the run loop with the identity spectral stage: the
sample popped is the extended input delayed by fft_size, and the
streaming invariant advances (staying inside the current hop, or
completing a cycle when the hop fills up). -/
lemma stream_step (e : ℚ) (x : List ℚ) {p u : ℕ} {s : STFTprocessor} {v : ℚ}
    (inv : StreamInv x p u s) (hv : v = x.getD (p + u) 0) :
    (stft_p_run_step idStage e s v).2 = xval x s.fft_size (p + u)
    ∧ StreamInv x (if u + 1 = s.hop then p + s.hop else p)
        (if u + 1 = s.hop then 0 else u + 1) (stft_p_run_step idStage e s v).1 := by
  obtain ⟨cfg, hu, hrp, hfifo, hofifo, haccum, htail⟩ := inv
  have hb := cfg.block_eq
  have hLR := cfg.lat_add
  have hRle := cfg.hop_le
  have hNpos := cfg.fft_pos
  have hRpos := cfg.hop_pos
  have hy : (stft_p_run_step idStage e s v).2 = xval x s.fft_size (p + u) := by
    rw [run_step_snd, hrp]
    have hsub : s.input_latency + u - s.input_latency = u := by omega
    rw [hsub]
    exact hofifo u hu
  refine ⟨hy, ?_⟩
  by_cases hcyc : u + 1 = s.hop
  · rw [if_pos hcyc, if_pos hcyc]
    have htrig : s.block_size ≤ s.read_position + 1 := by
      rw [hb, hrp]; omega
    have hF : ∀ k, k < s.fft_size → fifo_write s v k = xval x s.input_latency (p + k) := by
      intro k hk
      unfold fifo_write
      by_cases hkr : k = s.read_position
      · rw [if_pos hkr, hv]
        rw [xval_ge (show s.input_latency ≤ p + k by rw [hkr, hrp]; omega)]
        congr 1
        rw [hkr, hrp]
        omega
      · rw [if_neg hkr]
        have hk2 : k < s.input_latency + u := by
          rw [hrp] at hkr
          omega
        rw [hfifo k (by omega), if_pos hk2]
    have hshiftN : ∀ i, xval x s.input_latency i = xval x s.fft_size (i + s.hop) := by
      intro i
      rw [xval_shift x s.input_latency i s.hop, hLR]
    obtain ⟨a1, a2, a3, a4, a5, a6, a7, a8, _, _⟩ := run_step_cfg idStage e s v
    have htg : tail_gain (stft_p_run_step idStage e s v).1 = tail_gain s :=
      tail_gain_eq_of_cfg a7 a8 a6 a5 a3
    refine ⟨goodcfg_step idStage e v cfg, ?_, ?_, ?_, ?_, ?_, ?_⟩
    · rw [a3]; exact hRpos
    · rw [cycle_read_position idStage e v htrig, a4]
      omega
    · intro k hk
      rw [a2, hb] at hk
      rw [cycle_in_fifo idStage e v htrig k, a4, a1]
      by_cases hkL : k < s.input_latency
      · rw [if_pos hkL, if_pos (show k < s.input_latency + 0 by omega)]
        rw [hF (k + s.hop) (by omega)]
        congr 1
        omega
      · rw [if_neg hkL, if_neg (show ¬ k < s.input_latency + 0 by omega)]
        rw [hF k hk, hshiftN]
        congr 1
        omega
    · intro r hr
      rw [a3] at hr
      rw [cycle_out_fifo idStage e v htrig r, if_pos hr,
        cycle_accum1_id e v hb hNpos r, if_pos (show r < s.block_size by omega),
        haccum r (by omega), hF r (by omega), hshiftN (p + r), a1]
      have hidx : p + r + s.hop = p + s.hop + r := by omega
      rw [hidx]
      have hcola := tail_gain_bot cfg hr
      linear_combination xval x s.fft_size (p + s.hop + r) * hcola
    · intro k hk
      rw [a2, hb] at hk
      rw [cycle_output_accum idStage e v htrig k, if_pos (show k < s.block_size by omega),
        cycle_accum1_id e v hb hNpos (k + s.hop), a1, a3, htg]
      by_cases hkR : k + s.hop < s.block_size
      · rw [if_pos hkR, haccum (k + s.hop) hkR, hF (k + s.hop) (by omega),
          hshiftN (p + (k + s.hop))]
        have hidx1 : p + s.hop + (k + s.hop) = p + s.hop + s.hop + k := by omega
        have hidx2 : p + (k + s.hop) + s.hop = p + s.hop + s.hop + k := by omega
        rw [hidx1, hidx2, ← tail_gain_shift cfg (show k + s.hop < s.fft_size by omega)]
        ring
      · rw [if_neg hkR, htail (k + s.hop) (by omega),
          tail_gain_zero cfg (show s.fft_size ≤ k + s.hop by omega)]
        ring
    · intro k hk
      rw [a2, hb] at hk
      rw [cycle_output_accum idStage e v htrig k, if_neg (by omega),
        cycle_accum1_id e v hb hNpos k, if_neg (by omega)]
      exact htail k (by omega)
  · rw [if_neg hcyc, if_neg hcyc]
    have hnt : ¬ s.block_size ≤ s.read_position + 1 := by
      rw [hb, hrp]
      omega
    obtain ⟨a1, a2, a3, a4, a5, a6, a7, a8, _, _⟩ := run_step_cfg idStage e s v
    have htg : tail_gain (stft_p_run_step idStage e s v).1 = tail_gain s :=
      tail_gain_eq_of_cfg a7 a8 a6 a5 a3
    refine ⟨goodcfg_step idStage e v cfg, ?_, ?_, ?_, ?_, ?_, ?_⟩
    · rw [a3]
      omega
    · rw [no_cycle_read_position idStage e v hnt, a4, hrp]
      omega
    · intro k hk
      rw [a2] at hk
      rw [no_cycle_in_fifo idStage e v hnt, a4, a1]
      unfold fifo_write
      by_cases hkr : k = s.read_position
      · rw [if_pos hkr, if_pos (show k < s.input_latency + (u + 1) by rw [hkr, hrp]; omega)]
        rw [hv, xval_ge (show s.input_latency ≤ p + k by rw [hkr, hrp]; omega)]
        congr 1
        rw [hkr, hrp]
        omega
      · rw [if_neg hkr]
        rw [hfifo k hk]
        by_cases hk2 : k < s.input_latency + u
        · rw [if_pos hk2, if_pos (by omega)]
        · rw [if_neg hk2, if_neg (show ¬ k < s.input_latency + (u + 1) by
            rw [hrp] at hkr
            omega)]
    · intro r hr
      rw [a3] at hr
      rw [no_cycle_out_fifo idStage e v hnt, a1]
      exact hofifo r hr
    · intro k hk
      rw [a2] at hk
      rw [no_cycle_output_accum idStage e v hnt, a1, a3, htg]
      exact haccum k hk
    · intro k hk
      rw [a2] at hk
      rw [no_cycle_output_accum idStage e v hnt]
      exact htail k hk

/-- The run loop with the identity spectral stage, from any state
satisfying the streaming invariant at stream position p + u, emits
exactly the extended input delayed by fft_size. -/
lemma stream_run (e : ℚ) (x : List ℚ) :
    ∀ (xs : List ℚ) (p u : ℕ) (s : STFTprocessor),
      StreamInv x p u s → xs = x.drop (p + u) →
      (stft_p_run idStage s xs e).2
        = (List.range' (p + u) xs.length).map (xval x s.fft_size) := by
  intro xs
  induction xs with
  | nil => intro p u s _ _; simp
  | cons v rest ih =>
      intro p u s inv hxs
      have hv : v = x.getD (p + u) 0 := by
        have h1 : (x.drop (p + u)).get? 0 = some v := by rw [← hxs]; rfl
        rw [List.get?_drop, Nat.add_zero] at h1
        rw [List.getD_eq_getD_get?, h1]
        rfl
      have hrest : rest = x.drop (p + u + 1) := by
        have h2 : (v :: rest).drop 1 = (x.drop (p + u)).drop 1 := by rw [hxs]
        simpa [List.drop_drop] using h2
      obtain ⟨hy, inv2⟩ := stream_step e x inv hv
      obtain ⟨a1, _, _, _, _, _, _, _, _, _⟩ := run_step_cfg idStage e s v
      have hpos : (if u + 1 = s.hop then p + s.hop else p)
          + (if u + 1 = s.hop then 0 else u + 1) = p + u + 1 := by
        by_cases hc : u + 1 = s.hop
        · rw [if_pos hc, if_pos hc]; omega
        · rw [if_neg hc, if_neg hc]; omega
      have hrec := ih (if u + 1 = s.hop then p + s.hop else p)
        (if u + 1 = s.hop then 0 else u + 1) (stft_p_run_step idStage e s v).1 inv2
        (by rw [hpos]; exact hrest)
      rw [hpos, a1] at hrec
      rw [run_cons]
      show (stft_p_run_step idStage e s v).2
          :: (stft_p_run idStage (stft_p_run_step idStage e s v).1 rest e).2 = _
      rw [hy, hrec, List.length_cons, List.range'_succ, List.map_cons]

@[simp] lemma ppw_fft_size (gen) (s : STFTprocessor) :
    (stft_p_pre_and_post_window gen s).fft_size = s.fft_size := rfl

@[simp] lemma ppw_block_size (gen) (s : STFTprocessor) :
    (stft_p_pre_and_post_window gen s).block_size = s.block_size := rfl

@[simp] lemma ppw_hop (gen) (s : STFTprocessor) :
    (stft_p_pre_and_post_window gen s).hop = s.hop := rfl

@[simp] lemma ppw_input_latency (gen) (s : STFTprocessor) :
    (stft_p_pre_and_post_window gen s).input_latency = s.input_latency := rfl

@[simp] lemma ppw_read_position (gen) (s : STFTprocessor) :
    (stft_p_pre_and_post_window gen s).read_position = s.read_position := rfl

@[simp] lemma ppw_overlap_factor (gen) (s : STFTprocessor) :
    (stft_p_pre_and_post_window gen s).overlap_factor = s.overlap_factor := rfl

@[simp] lemma ppw_in_fifo (gen) (s : STFTprocessor) :
    (stft_p_pre_and_post_window gen s).in_fifo = s.in_fifo := rfl

@[simp] lemma ppw_out_fifo (gen) (s : STFTprocessor) :
    (stft_p_pre_and_post_window gen s).out_fifo = s.out_fifo := rfl

@[simp] lemma ppw_output_accum (gen) (s : STFTprocessor) :
    (stft_p_pre_and_post_window gen s).output_accum = s.output_accum := rfl

lemma ppw_input_window (gen) (s : STFTprocessor) :
    (stft_p_pre_and_post_window gen s).input_window
      = if s.window_option_input < 4 then
          fft_window_write gen s.input_window s.block_size s.window_option_input
        else s.input_window := rfl

lemma ppw_output_window (gen) (s : STFTprocessor) :
    (stft_p_pre_and_post_window gen s).output_window
      = if s.window_option_output < 4 then
          fft_window_write gen s.output_window s.block_size s.window_option_output
        else s.output_window := rfl

lemma ppw_scale (gen) (s : STFTprocessor) :
    (stft_p_pre_and_post_window gen s).overlap_scale_factor
      = dot_sum (stft_p_pre_and_post_window gen s).input_window
          (stft_p_pre_and_post_window gen s).output_window s.block_size
        / (s.block_size : ℚ) := rfl

@[simp] lemma init_fft_size (gen) (sr : ℕ) :
    (stft_p_init gen sr).fft_size = 2048 := rfl

@[simp] lemma init_block_size (gen) (sr : ℕ) :
    (stft_p_init gen sr).block_size = 2048 := rfl

@[simp] lemma init_hop (gen) (sr : ℕ) : (stft_p_init gen sr).hop = 512 := rfl

@[simp] lemma init_input_latency (gen) (sr : ℕ) :
    (stft_p_init gen sr).input_latency = 1536 := rfl

@[simp] lemma init_read_position (gen) (sr : ℕ) :
    (stft_p_init gen sr).read_position = 1536 := rfl

@[simp] lemma init_overlap_factor (gen) (sr : ℕ) :
    (stft_p_init gen sr).overlap_factor = 4 := rfl

@[simp] lemma init_in_fifo (gen) (sr : ℕ) (k : ℕ) :
    (stft_p_init gen sr).in_fifo k = 0 := by
  show array_fill (fun _ => 0) 0 BLOCK_SIZE k = 0
  unfold array_fill
  split <;> rfl

@[simp] lemma init_out_fifo (gen) (sr : ℕ) (k : ℕ) :
    (stft_p_init gen sr).out_fifo k = 0 := by
  show array_fill (fun _ => 0) 0 BLOCK_SIZE k = 0
  unfold array_fill
  split <;> rfl

@[simp] lemma init_output_accum (gen) (sr : ℕ) (k : ℕ) :
    (stft_p_init gen sr).output_accum k = 0 := by
  show array_fill (fun _ => 0) 0 (BLOCK_SIZE * 2) k = 0
  unfold array_fill
  split <;> rfl

lemma init_input_window (gen) (sr : ℕ) (k : ℕ) :
    (stft_p_init gen sr).input_window k
      = if k < 2048 then gen INPUT_WINDOW_TYPE 2048 k else 0 := by
  show (if INPUT_WINDOW_TYPE < 4 then
      fft_window_write gen (array_fill (fun _ => 0) 0 FFT_SIZE) BLOCK_SIZE INPUT_WINDOW_TYPE
    else array_fill (fun _ => 0) 0 FFT_SIZE) k = _
  rw [if_pos (by norm_num [INPUT_WINDOW_TYPE])]
  unfold fft_window_write array_fill BLOCK_SIZE FFT_SIZE INPUT_WINDOW_TYPE
  split <;> rfl

lemma init_output_window (gen) (sr : ℕ) (k : ℕ) :
    (stft_p_init gen sr).output_window k
      = if k < 2048 then gen OUTPUT_WINDOW_TYPE 2048 k else 0 := by
  show (if OUTPUT_WINDOW_TYPE < 4 then
      fft_window_write gen (array_fill (fun _ => 0) 0 FFT_SIZE) BLOCK_SIZE OUTPUT_WINDOW_TYPE
    else array_fill (fun _ => 0) 0 FFT_SIZE) k = _
  rw [if_pos (by norm_num [OUTPUT_WINDOW_TYPE])]
  unfold fft_window_write array_fill BLOCK_SIZE FFT_SIZE OUTPUT_WINDOW_TYPE
  split <;> rfl

lemma init_goodcfg (gen) (sr : ℕ)
    (hc : ∀ r, r < (stft_p_init gen sr).hop → ola_gain (stft_p_init gen sr) r = 1) :
    GoodCfg (stft_p_init gen sr) := by
  constructor
  · rw [init_fft_size]; norm_num
  · rw [init_hop]; norm_num
  · rw [init_block_size, init_fft_size]
  · rw [init_hop, init_overlap_factor, init_fft_size]
  · rw [init_input_latency, init_fft_size, init_hop]
  · exact hc

/-- The freshly initialized state satisfies the streaming invariant at
stream position 0, for any input stream, provided the generated window
pair has unit OLA gain. -/
lemma init_inv (gen) (sr : ℕ) (x : List ℚ)
    (hc : ∀ r, r < (stft_p_init gen sr).hop → ola_gain (stft_p_init gen sr) r = 1) :
    StreamInv x 0 0 (stft_p_init gen sr) := by
  have hcfg := init_goodcfg gen sr hc
  refine ⟨hcfg, ?_, ?_, ?_, ?_, ?_, ?_⟩
  · rw [init_hop]; norm_num
  · rw [init_read_position, init_input_latency]
  · intro k hk
    rw [init_block_size] at hk
    rw [init_in_fifo, init_input_latency, init_fft_size]
    by_cases h : k < 1536 + 0
    · rw [if_pos h, xval_lt (by omega)]
    · rw [if_neg h, xval_lt (by omega)]
  · intro r hr
    rw [init_hop] at hr
    rw [init_out_fifo, init_fft_size, xval_lt (by omega)]
  · intro k hk
    rw [init_block_size] at hk
    rw [init_output_accum, init_fft_size, init_hop]
    by_cases h : 0 + 512 + k < 2048
    · rw [xval_lt h]
      ring
    · rw [tail_gain_zero hcfg (by rw [init_fft_size, init_hop]; omega)]
      ring
  · intro k _
    rw [init_output_accum]

/-- With the identity spectral stage and a window pair of unit OLA gain,
the output stream of the initialized processor is exactly the input
stream delayed by fft_size samples (zeros during the first fft_size
output samples). -/
lemma stft_reconstruct (gen : ℕ → ℕ → ℕ → ℚ) (sr : ℕ) (e : ℚ) (x : List ℚ)
    (hc : ∀ r, r < (stft_p_init gen sr).hop → ola_gain (stft_p_init gen sr) r = 1)
    {t : ℕ} (ht : t < x.length) :
    (stft_p_run idStage (stft_p_init gen sr) x e).2.get? t
      = some (xval x (stft_p_init gen sr).fft_size t) := by
  have h := stream_run e x x 0 0 (stft_p_init gen sr) (init_inv gen sr x hc) (by simp)
  rw [Nat.add_zero] at h
  have hm := List.get?_map (xval x (stft_p_init gen sr).fft_size) (List.range x.length) t
  rw [h, ← List.range_eq_range', hm, List.get?_range ht]
  rfl

lemma dot_sum_ones {w1 w2 : ℕ → ℚ} :
    ∀ n, (∀ k, k < n → w1 k * w2 k = 1) → dot_sum w1 w2 n = n := by
  intro n
  induction n with
  | zero => intro _; rfl
  | succ m ih =>
      intro h
      show dot_sum w1 w2 m + w1 m * w2 m = ((m + 1 : ℕ) : ℚ)
      rw [ih (fun k hk => h k (by omega)), h m (by omega)]
      push_cast
      ring

lemma init_scale (gen) (sr : ℕ) :
    (stft_p_init gen sr).overlap_scale_factor
      = dot_sum (stft_p_init gen sr).input_window
          (stft_p_init gen sr).output_window 2048 / ((2048 : ℕ) : ℚ) := rfl

lemma init_scale_gen1 (sr : ℕ) : (stft_p_init gen1 sr).overlap_scale_factor = 1 := by
  rw [init_scale]
  rw [dot_sum_ones 2048 (fun k hk => by
    rw [init_input_window, init_output_window, if_pos hk, if_pos hk]
    show (1 : ℚ) * 1 = 1
    norm_num)]
  norm_num

lemma win_prod_gen1 (sr : ℕ) {k : ℕ} (hk : k < 2048) :
    win_prod (stft_p_init gen1 sr) k = 1 / 4 := by
  unfold win_prod
  rw [init_input_window, init_output_window, if_pos hk, if_pos hk,
    init_scale_gen1, init_overlap_factor]
  show (1 : ℚ) * 1 / (1 * (4 : ℕ)) = 1 / 4
  norm_num

lemma cola_gen1 (sr : ℕ) :
    ∀ r, r < (stft_p_init gen1 sr).hop → ola_gain (stft_p_init gen1 sr) r = 1 := by
  intro r hr
  rw [init_hop] at hr
  unfold ola_gain
  rw [init_overlap_factor]
  have hterm : ∀ j ∈ Finset.range 4,
      win_prod (stft_p_init gen1 sr) (r + j * (stft_p_init gen1 sr).hop) = 1 / 4 := by
    intro j hj
    rw [Finset.mem_range] at hj
    rw [init_hop]
    exact win_prod_gen1 sr (by omega)
  rw [Finset.sum_congr rfl hterm, Finset.sum_const, Finset.card_range, nsmul_eq_mul]
  norm_num

/-- Claim C1 counterexample: with the identity Spectral Stage, a unit
OLA gain window pair and a constant all-ones input, the output sample at
index algorithmic_latency = 1536 (the first sample the claim keeps after
discarding) is 0, not the input sample 1 it is claimed to reproduce: the
pipeline delay is fft_size = 2048, not fft_size - hop = 1536. -/
theorem spec_c1_counterexample :
    (stft_p_run idStage (stft_p_init gen1 48000) (List.replicate 1537 1) 1).2.get? 1536
      = some 0
    ∧ (List.replicate 1537 (1 : ℚ)).get?
        (1536 - stft_p_get_latency (stft_p_init gen1 48000)) = some 1
    ∧ (0 : ℚ) ≠ 1 := by
  refine ⟨?_, ?_, by norm_num⟩
  · rw [stft_reconstruct gen1 48000 1 (List.replicate 1537 1) (cola_gen1 48000)
      (show 1536 < (List.replicate 1537 (1 : ℚ)).length by
        rw [List.length_replicate]
        norm_num)]
    rw [init_fft_size, xval_lt (by norm_num)]
  · show (List.replicate 1537 (1 : ℚ)).get? 0 = some 1
    rfl

/-- Claim C1 (amended): with the Spectral Stage acting as the identity
and a window pair whose OLA gain is one at every hop offset, the output
of stft_p_run is the input delayed by transform_size samples: the first
transform_size outputs (not transform_size - hop of them) are zero, and
output sample t for t at least transform_size equals input sample
t - transform_size exactly. -/
theorem spec_c1_amended (gen : ℕ → ℕ → ℕ → ℚ) (sr : ℕ) (e : ℚ) (x : List ℚ) (t : ℕ)
    (hc : ∀ r, r < (stft_p_init gen sr).hop → ola_gain (stft_p_init gen sr) r = 1)
    (ht : t < x.length) :
    (stft_p_run idStage (stft_p_init gen sr) x e).2.get? t
      = some (if t < (stft_p_init gen sr).fft_size then 0
              else x.getD (t - (stft_p_init gen sr).fft_size) 0) := by
  rw [stft_reconstruct gen sr e x hc ht]
  rfl

/-- Witness for the amended claim C1 at a concrete input: the all-ones
window generator satisfies the unit OLA gain hypothesis, and the first
output sample on input of a single 5 is 0 (still inside the warm-up). -/
theorem spec_c1_amended_witness :
    ola_gain (stft_p_init gen1 48000) 0 = 1
    ∧ (0 : ℕ) < [(5 : ℚ)].length
    ∧ (stft_p_run idStage (stft_p_init gen1 48000) [(5 : ℚ)] 1).2.get? 0 = some 0 := by
  refine ⟨cola_gen1 48000 0 (by norm_num), by norm_num, ?_⟩
  have h := spec_c1_amended gen1 48000 1 [(5 : ℚ)] 0 (cola_gen1 48000) (by norm_num)
  rw [h, init_fft_size, if_pos (by norm_num)]

/-
Invariants over arbitrary sequences of public operations.
-/

lemma run_pres (g) (P : STFTprocessor → Prop)
    (hstep : ∀ e (s : STFTprocessor) v, P s → P (stft_p_run_step g e s v).1) :
    ∀ (input : List ℚ) e (s : STFTprocessor), P s → P (stft_p_run g s input e).1 := by
  intro input
  induction input with
  | nil => intro e s hs; exact hs
  | cons v rest ih =>
      intro e s hs
      rw [run_cons]
      exact ih e (stft_p_run_step g e s v).1 (hstep e s v hs)

lemma exec_list_pres (g) (P : STFTprocessor → Prop)
    (hstep : ∀ e (s : STFTprocessor) v, P s → P (stft_p_run_step g e s v).1)
    (hreset : ∀ s : STFTprocessor, P s → P (stft_p_reset s)) :
    ∀ (ops : List STFTop) (s : STFTprocessor), P s → P (stft_p_exec_list g s ops) := by
  intro ops
  induction ops with
  | nil => intro s hs; exact hs
  | cons op rest ih =>
      intro s hs
      show P (stft_p_exec_list g (stft_p_exec g s op) rest)
      apply ih
      cases op with
      | runOp input e => exact run_pres g P hstep input e s hs
      | resetOp => exact hreset s hs

lemma exec_list_cfg (g) (ops : List STFTop) : ∀ (s : STFTprocessor),
    (stft_p_exec_list g s ops).fft_size = s.fft_size
    ∧ (stft_p_exec_list g s ops).block_size = s.block_size
    ∧ (stft_p_exec_list g s ops).hop = s.hop
    ∧ (stft_p_exec_list g s ops).input_latency = s.input_latency
    ∧ (stft_p_exec_list g s ops).overlap_factor = s.overlap_factor := by
  induction ops with
  | nil => intro s; exact ⟨rfl, rfl, rfl, rfl, rfl⟩
  | cons op rest ih =>
      intro s
      obtain ⟨b1, b2, b3, b4, b5⟩ := ih (stft_p_exec g s op)
      have ha : (stft_p_exec g s op).fft_size = s.fft_size
          ∧ (stft_p_exec g s op).block_size = s.block_size
          ∧ (stft_p_exec g s op).hop = s.hop
          ∧ (stft_p_exec g s op).input_latency = s.input_latency
          ∧ (stft_p_exec g s op).overlap_factor = s.overlap_factor := by
        cases op with
        | runOp input e =>
            obtain ⟨c1, c2, c3, c4, c5, _⟩ := run_cfg g input e s
            exact ⟨c1, c2, c3, c4, c5⟩
        | resetOp => exact ⟨rfl, rfl, rfl, rfl, rfl⟩
      exact ⟨b1.trans ha.1, b2.trans ha.2.1, b3.trans ha.2.2.1,
        b4.trans ha.2.2.2.1, b5.trans ha.2.2.2.2⟩

/-- Claim C5: get_latency returns transform_size - hop where hop is
transform_size / overlap_factor, and the returned value is unchanged by
any sequence of run and reset operations after initialization. -/
theorem spec_c5_latency (g) (gen : ℕ → ℕ → ℕ → ℚ) (sr : ℕ) (ops : List STFTop) :
    stft_p_get_latency (stft_p_exec_list g (stft_p_init gen sr) ops)
      = (stft_p_exec_list g (stft_p_init gen sr) ops).fft_size
        - (stft_p_exec_list g (stft_p_init gen sr) ops).hop
    ∧ (stft_p_exec_list g (stft_p_init gen sr) ops).hop
      = (stft_p_exec_list g (stft_p_init gen sr) ops).fft_size
        / (stft_p_exec_list g (stft_p_init gen sr) ops).overlap_factor
    ∧ stft_p_get_latency (stft_p_exec_list g (stft_p_init gen sr) ops)
      = stft_p_get_latency (stft_p_init gen sr) := by
  obtain ⟨h1, _, h3, h4, h5⟩ := exec_list_cfg g ops (stft_p_init gen sr)
  unfold stft_p_get_latency
  rw [h1, h3, h4, h5, init_fft_size, init_hop, init_input_latency, init_overlap_factor]
  norm_num

/-- The reached-state invariant of claim C8. -/
lemma inv8_exec (g) (gen : ℕ → ℕ → ℕ → ℚ) (sr : ℕ) (ops : List STFTop) :
    (stft_p_exec_list g (stft_p_init gen sr) ops).input_latency
      ≤ (stft_p_exec_list g (stft_p_init gen sr) ops).read_position
    ∧ (stft_p_exec_list g (stft_p_init gen sr) ops).read_position
      < (stft_p_exec_list g (stft_p_init gen sr) ops).block_size := by
  have h := exec_list_pres g
    (fun s => s.input_latency ≤ s.read_position
      ∧ s.read_position < s.block_size ∧ s.input_latency < s.block_size)
    (by
      intro e s v hs
      obtain ⟨h1, h2, h3⟩ := hs
      obtain ⟨_, a2, _, a4, _, _, _, _, _, _⟩ := run_step_cfg g e s v
      by_cases hc : s.block_size ≤ s.read_position + 1
      · rw [cycle_read_position g e v hc, a2, a4]
        exact ⟨le_refl _, h3, h3⟩
      · rw [no_cycle_read_position g e v hc, a2, a4]
        exact ⟨by omega, by omega, h3⟩)
    (by
      intro s hs
      obtain ⟨h1, h2, h3⟩ := hs
      exact ⟨h1, h2, h3⟩)
    ops (stft_p_init gen sr)
    ⟨by norm_num, by norm_num, by norm_num⟩
  exact ⟨h.1, h.2.1⟩

/-- Claim C8: in every state reachable from initialization through
public operations, read_position stays in the interval from
input_latency up to (strictly below) block_size; a push triggers a cycle
exactly when it would bring read_position to block_size, in which case
read_position is reset to input_latency, and otherwise read_position
just advances and the output side (out_fifo, output_accum) is
untouched. -/
theorem spec_c8_read_position (g) (gen : ℕ → ℕ → ℕ → ℚ) (sr : ℕ) (ops : List STFTop) :
    ((stft_p_exec_list g (stft_p_init gen sr) ops).input_latency
        ≤ (stft_p_exec_list g (stft_p_init gen sr) ops).read_position
      ∧ (stft_p_exec_list g (stft_p_init gen sr) ops).read_position
        < (stft_p_exec_list g (stft_p_init gen sr) ops).block_size)
    ∧ (∀ (g2 : (ℕ → ℚ) → ℚ → (ℕ → ℚ)) (e : ℚ) (s : STFTprocessor) (v : ℚ),
        s.read_position + 1 = s.block_size →
          (stft_p_run_step g2 e s v).1.read_position = s.input_latency)
    ∧ (∀ (g2 : (ℕ → ℚ) → ℚ → (ℕ → ℚ)) (e : ℚ) (s : STFTprocessor) (v : ℚ),
        s.read_position + 1 < s.block_size →
          (stft_p_run_step g2 e s v).1.read_position = s.read_position + 1
          ∧ (stft_p_run_step g2 e s v).1.out_fifo = s.out_fifo
          ∧ (stft_p_run_step g2 e s v).1.output_accum = s.output_accum) := by
  refine ⟨inv8_exec g gen sr ops, ?_, ?_⟩
  · intro g2 e s v h
    exact cycle_read_position g2 e v (by omega)
  · intro g2 e s v h
    have hn : ¬ s.block_size ≤ s.read_position + 1 := by omega
    exact ⟨no_cycle_read_position g2 e v hn, no_cycle_out_fifo g2 e v hn,
      no_cycle_output_accum g2 e v hn⟩

/-- Witness for claim C8 at concrete inputs: the freshly initialized
state (no operations) has read_position 1536 inside [1536, 2048), and on
the concrete trigger_test_state (read_position 3, block_size 4) one push
resets read_position to input_latency 2, while from the initialized
state (1536 + 1 < 2048) a push just advances it. -/
theorem spec_c8_read_position_witness :
    ((stft_p_init gen1 48000).input_latency ≤ (stft_p_init gen1 48000).read_position
      ∧ (stft_p_init gen1 48000).read_position < (stft_p_init gen1 48000).block_size)
    ∧ trigger_test_state.read_position + 1 = trigger_test_state.block_size
    ∧ (stft_p_run_step idStage 0 trigger_test_state 7).1.read_position
        = trigger_test_state.input_latency
    ∧ (stft_p_init gen1 48000).read_position + 1 < (stft_p_init gen1 48000).block_size
    ∧ (stft_p_run_step idStage 0 (stft_p_init gen1 48000) 7).1.read_position
        = (stft_p_init gen1 48000).read_position + 1 := by
  refine ⟨?_, by norm_num [trigger_test_state], ?_, by norm_num, ?_⟩
  · exact (spec_c8_read_position idStage gen1 48000 []).1
  · exact (spec_c8_read_position idStage gen1 48000 []).2.1 idStage 0
      trigger_test_state 7 (by norm_num [trigger_test_state])
  · exact ((spec_c8_read_position idStage gen1 48000 []).2.2 idStage 0
      (stft_p_init gen1 48000) 7 (by norm_num)).1

/-- The output-accumulator tail invariant of claim C10. -/
lemma inv10_exec (g) (gen : ℕ → ℕ → ℕ → ℚ) (sr : ℕ) (ops : List STFTop) :
    ∀ k, (stft_p_exec_list g (stft_p_init gen sr) ops).block_size ≤ k →
      (stft_p_exec_list g (stft_p_init gen sr) ops).output_accum k = 0 := by
  apply exec_list_pres g
    (fun s => ∀ k, s.block_size ≤ k → s.output_accum k = 0)
  · intro e s v hs k hk
    obtain ⟨_, a2, _, _, _, _, _, _, _, _⟩ := run_step_cfg g e s v
    rw [a2] at hk
    by_cases hc : s.block_size ≤ s.read_position + 1
    · rw [cycle_output_accum g e v hc k, if_neg (by omega), accum1_ge g e s v hk]
      exact hs k hk
    · rw [no_cycle_output_accum g e v hc]
      exact hs k hk
  · intro s hs k hk
    rw [reset_output_accum]
    unfold array_fill
    split
    · rfl
    · exact hs k hk
  · intro k _
    rw [init_output_accum]

/-- Claim C10: in every reachable state the output accumulator is zero
at all indices from block_size up to 2 * block_size - 1, and because of
that invariant the memmove left-shift inside stft_p_synthesis only moves
zeros into the vacated tail: after a synthesis on any state with a zero
accumulator tail and hop at most block_size, every accumulator index
from block_size - hop on is zero. -/
theorem spec_c10_accum_tail (g) (gen : ℕ → ℕ → ℕ → ℚ) (sr : ℕ) (ops : List STFTop) :
    (∀ k, (stft_p_exec_list g (stft_p_init gen sr) ops).block_size ≤ k →
        k < 2 * (stft_p_exec_list g (stft_p_init gen sr) ops).block_size →
        (stft_p_exec_list g (stft_p_init gen sr) ops).output_accum k = 0)
    ∧ (∀ s : STFTprocessor, (∀ j, s.block_size ≤ j → s.output_accum j = 0) →
        s.hop ≤ s.block_size →
        ∀ j, s.block_size - s.hop ≤ j → (stft_p_synthesis s).output_accum j = 0) := by
  constructor
  · intro k hk _
    exact inv10_exec g gen sr ops k hk
  · intro s hs hhop j hj
    rw [synthesis_output_accum]
    by_cases hjb : j < s.block_size
    · rw [if_pos hjb]
      unfold synth_accum1
      rw [if_neg (by omega)]
      exact hs (j + s.hop) (by omega)
    · rw [if_neg hjb]
      unfold synth_accum1
      rw [if_neg (by omega)]
      exact hs j (by omega)

/-- Witness for claim C10 at concrete inputs: in the freshly initialized
state the accumulator is zero at index 2048 = block_size (inside the
upper half), and a synthesis from the initialized state leaves index
1536 = block_size - hop at zero. -/
theorem spec_c10_accum_tail_witness :
    ((stft_p_init gen1 48000).block_size ≤ 2048
      ∧ 2048 < 2 * (stft_p_init gen1 48000).block_size
      ∧ (stft_p_init gen1 48000).output_accum 2048 = 0)
    ∧ ((stft_p_init gen1 48000).hop ≤ (stft_p_init gen1 48000).block_size
      ∧ (stft_p_synthesis (stft_p_init gen1 48000)).output_accum 1536 = 0) := by
  refine ⟨⟨by norm_num, by norm_num, ?_⟩, ⟨by norm_num, ?_⟩⟩
  · exact (spec_c10_accum_tail idStage gen1 48000 []).1 2048
      (by simp [stft_p_exec_list]) (by simp [stft_p_exec_list])
  · exact (spec_c10_accum_tail idStage gen1 48000 []).2 (stft_p_init gen1 48000)
      (fun j hj => init_output_accum gen1 48000 j) (by norm_num) 1536 (by norm_num)

/-
Call-boundary independence, the run contract, and the enable flag.
-/

lemma run_length (g e) : ∀ (input : List ℚ) (s : STFTprocessor),
    (stft_p_run g s input e).2.length = input.length := by
  intro input
  induction input with
  | nil => intro s; rfl
  | cons v rest ih =>
      intro s
      rw [run_cons, List.length_cons, List.length_cons, ih]

lemma run_append (g e) : ∀ (xs ys : List ℚ) (s : STFTprocessor),
    stft_p_run g s (xs ++ ys) e
      = ((stft_p_run g (stft_p_run g s xs e).1 ys e).1,
         (stft_p_run g s xs e).2 ++ (stft_p_run g (stft_p_run g s xs e).1 ys e).2) := by
  intro xs
  induction xs with
  | nil => intro ys s; simp
  | cons v rest ih =>
      intro ys s
      rw [List.cons_append, run_cons, run_cons, ih ys (stft_p_run_step g e s v).1]
      rfl

lemma run_queue (g e) : ∀ (input : List ℚ) (s : STFTprocessor),
    s.read_position + input.length < s.block_size →
    ((stft_p_run g s input e).1.read_position = s.read_position + input.length
      ∧ ∀ k, (stft_p_run g s input e).1.in_fifo k
          = if s.read_position ≤ k ∧ k < s.read_position + input.length
            then input.getD (k - s.read_position) 0 else s.in_fifo k) := by
  intro input
  induction input with
  | nil =>
      intro s _
      constructor
      · rw [run_nil, List.length_nil]
        show s.read_position = s.read_position + 0
        omega
      · intro k
        rw [run_nil, List.length_nil]
        show s.in_fifo k = _
        rw [if_neg (by omega)]
  | cons v rest ih =>
      intro s hlen
      rw [List.length_cons] at hlen
      have hnc : ¬ s.block_size ≤ s.read_position + 1 := by omega
      obtain ⟨_, a2, _, _, _, _, _, _, _, _⟩ := run_step_cfg g e s v
      have hrp1 := no_cycle_read_position g e v hnc
      have hif1 := no_cycle_in_fifo g e v hnc
      have hlen2 : (stft_p_run_step g e s v).1.read_position + rest.length
          < (stft_p_run_step g e s v).1.block_size := by
        rw [hrp1, a2]
        omega
      obtain ⟨hrp2, hif2⟩ := ih (stft_p_run_step g e s v).1 hlen2
      rw [run_cons]
      constructor
      · rw [hrp2, hrp1, List.length_cons]
        omega
      · intro k
        rw [hif2 k, hrp1, hif1]
        unfold fifo_write
        by_cases h1 : s.read_position + 1 ≤ k ∧ k < s.read_position + 1 + rest.length
        · rw [if_pos h1, List.length_cons, if_pos (by omega)]
          have hk : k - s.read_position = (k - (s.read_position + 1)) + 1 := by omega
          rw [hk]
          rfl
        · rw [if_neg h1]
          by_cases h2 : k = s.read_position
          · rw [if_pos h2, List.length_cons, if_pos (by omega)]
            have hk : k - s.read_position = 0 := by omega
            rw [hk]
            rfl
          · rw [if_neg h2, List.length_cons, if_neg (by omega)]

lemma run_enable_subst (g) : ∀ (xs : List ℚ) (s : STFTprocessor) (e e3 : ℚ),
    stft_p_run g s xs e = stft_p_run (fun buf _ => g buf e) s xs e3 := by
  intro xs
  induction xs with
  | nil => intro s e e3; rfl
  | cons v rest ih =>
      intro s e e3
      rw [run_cons, run_cons]
      have hstep : stft_p_run_step g e s v
          = stft_p_run_step (fun buf _ => g buf e) e3 s v := rfl
      rw [← hstep, ih (stft_p_run_step g e s v).1 e e3]

lemma step_bookkeeping (g) {s1 s2 : STFTprocessor} (e1 e2 v : ℚ)
    (h : s1.read_position = s2.read_position ∧ s1.in_fifo = s2.in_fifo
      ∧ s1.block_size = s2.block_size ∧ s1.input_latency = s2.input_latency
      ∧ s1.hop = s2.hop) :
    (stft_p_run_step g e1 s1 v).1.read_position = (stft_p_run_step g e2 s2 v).1.read_position
    ∧ (stft_p_run_step g e1 s1 v).1.in_fifo = (stft_p_run_step g e2 s2 v).1.in_fifo
    ∧ (stft_p_run_step g e1 s1 v).1.block_size = (stft_p_run_step g e2 s2 v).1.block_size
    ∧ (stft_p_run_step g e1 s1 v).1.input_latency = (stft_p_run_step g e2 s2 v).1.input_latency
    ∧ (stft_p_run_step g e1 s1 v).1.hop = (stft_p_run_step g e2 s2 v).1.hop := by
  obtain ⟨h1, h2, h3, h4, h5⟩ := h
  obtain ⟨_, a2, a3, a4, _, _, _, _, _, _⟩ := run_step_cfg g e1 s1 v
  obtain ⟨_, b2, b3, b4, _, _, _, _, _, _⟩ := run_step_cfg g e2 s2 v
  have hfw : fifo_write s1 v = fifo_write s2 v := by
    funext k
    unfold fifo_write
    rw [h1, h2]
  by_cases hc : s1.block_size ≤ s1.read_position + 1
  · have hc2 : s2.block_size ≤ s2.read_position + 1 := by omega
    refine ⟨?_, ?_, by omega, by omega, by omega⟩
    · rw [cycle_read_position g e1 v hc, cycle_read_position g e2 v hc2, h4]
    · funext k
      rw [cycle_in_fifo g e1 v hc k, cycle_in_fifo g e2 v hc2 k, h4, h5, hfw]
  · have hc2 : ¬ s2.block_size ≤ s2.read_position + 1 := by omega
    refine ⟨?_, ?_, by omega, by omega, by omega⟩
    · rw [no_cycle_read_position g e1 v hc, no_cycle_read_position g e2 v hc2, h1]
    · rw [no_cycle_in_fifo g e1 v hc, no_cycle_in_fifo g e2 v hc2, hfw]

lemma run_bookkeeping (g) : ∀ (xs : List ℚ) {s1 s2 : STFTprocessor} (e1 e2 : ℚ),
    (s1.read_position = s2.read_position ∧ s1.in_fifo = s2.in_fifo
      ∧ s1.block_size = s2.block_size ∧ s1.input_latency = s2.input_latency
      ∧ s1.hop = s2.hop) →
    (stft_p_run g s1 xs e1).1.read_position = (stft_p_run g s2 xs e2).1.read_position
    ∧ (stft_p_run g s1 xs e1).1.in_fifo = (stft_p_run g s2 xs e2).1.in_fifo := by
  intro xs
  induction xs with
  | nil => intro s1 s2 e1 e2 h; exact ⟨h.1, h.2.1⟩
  | cons v rest ih =>
      intro s1 s2 e1 e2 h
      rw [run_cons, run_cons]
      exact ih e1 e2 (step_bookkeeping g e1 e2 v h)

/-- Claim C6: one stft_p_run call writes exactly one output sample per
input sample (each popped from out_fifo at offset read_position -
input_latency), a call with the empty input returns the state unchanged
and writes nothing, and the pushed samples are queued in the input FIFO
in per-sample order starting at read_position (stated for a call that
stays inside the current analysis block). -/
theorem spec_c6_run_contract (g) (e : ℚ) (s : STFTprocessor) (input : List ℚ) :
    (stft_p_run g s input e).2.length = input.length
    ∧ stft_p_run g s [] e = (s, [])
    ∧ (∀ (v : ℚ) (rest : List ℚ), (stft_p_run g s (v :: rest) e).2.head?
        = some (s.out_fifo (s.read_position - s.input_latency)))
    ∧ (s.read_position + input.length < s.block_size →
        ∀ i, i < input.length →
          (stft_p_run g s input e).1.in_fifo (s.read_position + i) = input.getD i 0) := by
  refine ⟨run_length g e input s, run_nil g e s, ?_, ?_⟩
  · intro v rest
    rw [run_cons]
    show some (stft_p_run_step g e s v).2 = _
    rw [run_step_snd]
  · intro hlen i hi
    obtain ⟨_, hfifo⟩ := run_queue g e input s hlen
    rw [hfifo (s.read_position + i), if_pos (by omega)]
    congr 1
    omega

/-- Witness for claim C6 at a concrete input: pushing the single sample
7 into the freshly initialized processor queues it at read_position. -/
theorem spec_c6_run_contract_witness :
    (stft_p_init gen1 48000).read_position + [(7 : ℚ)].length
        < (stft_p_init gen1 48000).block_size
    ∧ (0 : ℕ) < [(7 : ℚ)].length
    ∧ (stft_p_run idStage (stft_p_init gen1 48000) [(7 : ℚ)] 0).1.in_fifo
        ((stft_p_init gen1 48000).read_position + 0) = 7 := by
  refine ⟨by norm_num, by norm_num, ?_⟩
  exact (spec_c6_run_contract idStage 0 (stft_p_init gen1 48000) [(7 : ℚ)]).2.2.2
    (by norm_num) 0 (by norm_num)

/-- Claim C7: feeding a stream split into consecutive blocks through
successive stft_p_run calls produces exactly the same final state and
the same concatenated output as feeding the whole stream in a single
call: the state evolution is independent of call boundaries. -/
theorem spec_c7_call_boundary (g) (e : ℚ) (s : STFTprocessor)
    (blocks : List (List ℚ)) :
    stft_p_run_chunks g e s blocks = stft_p_run g s blocks.join e := by
  induction blocks generalizing s with
  | nil => rfl
  | cons b bs ih =>
      show ((stft_p_run_chunks g e (stft_p_run g s b e).1 bs).1,
        (stft_p_run g s b e).2 ++ (stft_p_run_chunks g e (stft_p_run g s b e).1 bs).2) = _
      rw [ih (stft_p_run g s b e).1]
      show _ = stft_p_run g s (b ++ bs.join) e
      rw [run_append g e b bs.join s]

/-- Claim C9: the enable flag is handed to the Spectral Stage unchanged
(running with stage g and flag e equals running with the stage that
always receives e, whatever flag is passed), and the FIFO bookkeeping
(read_position, input FIFO, and with them the cycle timing) together
with the windows, the latency and the hop evolve identically for any two
enable flag values. -/
theorem spec_c9_enable_flag (g) (e1 e2 : ℚ) (s : STFTprocessor) (xs : List ℚ) :
    (∀ e3, stft_p_run g s xs e1 = stft_p_run (fun buf _ => g buf e1) s xs e3)
    ∧ (stft_p_run g s xs e1).1.read_position = (stft_p_run g s xs e2).1.read_position
    ∧ (stft_p_run g s xs e1).1.in_fifo = (stft_p_run g s xs e2).1.in_fifo
    ∧ (stft_p_run g s xs e1).1.input_window = (stft_p_run g s xs e2).1.input_window
    ∧ (stft_p_run g s xs e1).1.output_window = (stft_p_run g s xs e2).1.output_window
    ∧ (stft_p_run g s xs e1).1.input_latency = (stft_p_run g s xs e2).1.input_latency
    ∧ (stft_p_run g s xs e1).1.hop = (stft_p_run g s xs e2).1.hop
    ∧ (stft_p_run g s xs e1).1.overlap_scale_factor
      = (stft_p_run g s xs e2).1.overlap_scale_factor := by
  obtain ⟨hbk1, hbk2⟩ :=
    @run_bookkeeping g xs s s e1 e2 ⟨rfl, rfl, rfl, rfl, rfl⟩
  obtain ⟨_, _, c3, c4, _, c6, c7, c8, _, _⟩ := run_cfg g xs e1 s
  obtain ⟨_, _, d3, d4, _, d6, d7, d8, _, _⟩ := run_cfg g xs e2 s
  exact ⟨fun e3 => run_enable_subst g xs s e1 e3, hbk1, hbk2, c7.trans d7.symm,
    c8.trans d8.symm, c4.trans d4.symm, c3.trans d3.symm, c6.trans d6.symm⟩

/-
The zero-padding off-by-one and the scale factor.
-/

/-- Claim C2: evaluation of stft_p_zeropad at a failing input.  With
fft_size 4 and block_size 2 the claim requires exactly indices 2 and 3
to be zeroed and indices 0 and 1 untouched; the code instead zeroes
indices 1 and 2 (clobbering the valid sample 2 at index
block_size - 1 = 1) and leaves index fft_size - 1 = 3 holding its stale
value 4. -/
theorem spec_c2_zeropad_bug :
    zeropad_test_state.block_size = 2
    ∧ zeropad_test_state.fft_size = 4
    ∧ zeropad_test_state.input_fft_buffer 1 = 2
    ∧ (stft_p_zeropad zeropad_test_state).input_fft_buffer 0 = 1
    ∧ (stft_p_zeropad zeropad_test_state).input_fft_buffer 1 = 0
    ∧ (stft_p_zeropad zeropad_test_state).input_fft_buffer 2 = 0
    ∧ (stft_p_zeropad zeropad_test_state).input_fft_buffer 3 = 4 := by
  refine ⟨rfl, rfl, by norm_num [zeropad_test_state], ?_, ?_, ?_, ?_⟩ <;>
    norm_num [stft_p_zeropad, zeropad_test_state]

/-- Claim C3: after initialization (which performs window setup with the
hardcoded configuration, where block_size equals transform_size), the
reconstruction scale factor equals the inner product of the input and
output window sequences over transform_size entries divided by
transform_size. -/
theorem spec_c3_scale_factor (gen : ℕ → ℕ → ℕ → ℚ) (sr : ℕ) :
    (stft_p_init gen sr).overlap_scale_factor
      = dot_sum (stft_p_init gen sr).input_window (stft_p_init gen sr).output_window
          (stft_p_init gen sr).fft_size / ((stft_p_init gen sr).fft_size : ℚ) := rfl

/-- Claim C4 counterexample: reset() does not preserve the window
invariant.  With the all-ones window generator, after initialization the
input window at index 0 is the generator value 1, but after a subsequent
stft_p_reset it is 0, which is not the generator value for
(INPUT_WINDOW_TYPE, BLOCK_SIZE). -/
theorem spec_c4_counterexample :
    (stft_p_init gen1 48000).input_window 0 = 1
    ∧ (stft_p_reset (stft_p_init gen1 48000)).input_window 0 = 0
    ∧ gen1 INPUT_WINDOW_TYPE BLOCK_SIZE 0 = 1
    ∧ (0 : ℚ) ≠ 1 := by
  refine ⟨?_, ?_, rfl, by norm_num⟩
  · rw [init_input_window, if_pos (by norm_num)]
    rfl
  · rw [reset_input_window]
    unfold array_fill
    rw [if_pos (by norm_num)]

/-- Claim C4 (amended): after initialization both windows agree with the
window generator at (window type, block_size) on every index below
block_size, and stft_p_run never modifies them; stft_p_reset however
zero-fills both windows (so the window invariant survives run but not
reset, until window setup is executed again). -/
theorem spec_c4_windows :
    (∀ (gen : ℕ → ℕ → ℕ → ℚ) (sr k : ℕ), k < 2048 →
      (stft_p_init gen sr).input_window k = gen INPUT_WINDOW_TYPE 2048 k
      ∧ (stft_p_init gen sr).output_window k = gen OUTPUT_WINDOW_TYPE 2048 k)
    ∧ (∀ g (s : STFTprocessor) (xs : List ℚ) (e : ℚ),
        (stft_p_run g s xs e).1.input_window = s.input_window
        ∧ (stft_p_run g s xs e).1.output_window = s.output_window)
    ∧ (∀ (s : STFTprocessor) (k : ℕ), k < s.fft_size →
        (stft_p_reset s).input_window k = 0 ∧ (stft_p_reset s).output_window k = 0) := by
  refine ⟨?_, ?_, ?_⟩
  · intro gen sr k hk
    rw [init_input_window, init_output_window, if_pos hk, if_pos hk]
    exact ⟨rfl, rfl⟩
  · intro g s xs e
    obtain ⟨_, _, _, _, _, _, c7, c8, _, _⟩ := run_cfg g xs e s
    exact ⟨c7, c8⟩
  · intro s k hk
    rw [reset_input_window, reset_output_window]
    unfold array_fill
    rw [if_pos hk, if_pos hk]
    exact ⟨rfl, rfl⟩

/-- Witness for the amended claim C4 at concrete inputs: index 0 of the
initialized all-ones windows is the generator value, a run call leaves
the windows untouched, and a reset zeroes index 0. -/
theorem spec_c4_windows_witness :
    (0 : ℕ) < 2048
    ∧ (stft_p_init gen1 48000).input_window 0 = gen1 INPUT_WINDOW_TYPE 2048 0
    ∧ (stft_p_run idStage (stft_p_init gen1 48000) [(3 : ℚ)] 1).1.input_window
      = (stft_p_init gen1 48000).input_window
    ∧ (0 : ℕ) < trigger_test_state.fft_size
    ∧ (stft_p_reset trigger_test_state).input_window 0 = 0 := by
  refine ⟨by norm_num, ?_, ?_, by norm_num [trigger_test_state], ?_⟩
  · exact (spec_c4_windows.1 gen1 48000 0 (by norm_num)).1
  · exact (spec_c4_windows.2.1 idStage (stft_p_init gen1 48000) [(3 : ℚ)] 1).1
  · exact (spec_c4_windows.2.2 trigger_test_state 0
      (by norm_num [trigger_test_state])).1

end NoiseRepellent
